import Mathlib

/-!
Verification of the floor-plate optimizer (`backend/floor_plate_optimizer.py`).

The development is a shallow embedding over exact rational arithmetic:
Python floats become `ℚ`, shapely polygons are represented by the data the
optimizer actually reads from them (bounding box, area, centroid, exterior
ring), and the geometry-kernel operations the synthesizer performs on
axis-aligned boxes (union area and centroid via inclusion–exclusion,
uniform scaling about the centroid) are implemented exactly.
-/

namespace LayoutPlanner

/-! ## Data model (dataclasses of the source) -/

/-- `UnitTemplate` dataclass: a dwelling-type catalog entry. -/
structure UnitTemplate where
  id : String
  name : String
  bhk_type : String
  width : ℚ
  depth : ℚ
  carpet_area : ℚ
  super_built_up : ℚ
  deriving DecidableEq, Repr

/-- `CoreTemplate` dataclass: vertical circulation core. -/
structure CoreTemplate where
  id : String
  width : ℚ
  depth : ℚ
  lift_count : ℕ
  stair_count : ℕ
  deriving DecidableEq, Repr

/-- `PlacedUnit` dataclass: one unit instance placed on a floor. -/
structure PlacedUnit where
  id : String
  unit_type_id : String
  x : ℚ
  y : ℚ
  width : ℚ
  depth : ℚ
  rotation : ℚ
  floor : ℕ
  has_balcony : Bool
  ventilation_sides : List String
  deriving DecidableEq, Repr

/-- `PlacedCore` dataclass: one core instance placed on a floor plate. -/
structure PlacedCore where
  id : String
  x : ℚ
  y : ℚ
  width : ℚ
  depth : ℚ
  lift_count : ℕ
  stair_count : ℕ
  deriving DecidableEq, Repr

/-- `CorridorType` enum. -/
inductive CorridorType where
  | singleLoaded
  | doubleLoaded
  deriving DecidableEq, Repr

/-- `Corridor` dataclass. -/
structure Corridor where
  x : ℚ
  y : ℚ
  width : ℚ
  depth : ℚ
  corridor_type : CorridorType
  deriving DecidableEq, Repr

/-- `FloorPlateResult` dataclass: one floor's full layout. -/
structure FloorPlateResult where
  floor_number : ℕ
  units : List PlacedUnit
  cores : List PlacedCore
  corridors : List Corridor
  boundary_polygon : List (ℚ × ℚ)
  total_area : ℚ
  usable_area : ℚ
  efficiency : ℚ
  deriving DecidableEq, Repr

/-- `BuildingShape` enum, restricted to the shape templates the generator
sweeps (`shapes_to_try = [LINEAR, L_SHAPE, U_SHAPE]`); the other templates
are never requested by `generate_variants`. -/
inductive BuildingShape where
  | linear
  | lShape
  | uShape
  deriving DecidableEq, Repr

/-- `BuildingVariant` dataclass: a complete design variant. -/
structure BuildingVariant where
  id : String
  name : String
  shape : BuildingShape
  corridor_type : CorridorType
  floors : List FloorPlateResult
  total_units : ℕ
  unit_mix : List (String × ℕ)
  total_built_up_area : ℚ
  total_carpet_area : ℚ
  fsi_achieved : ℚ
  ground_coverage : ℚ
  score : ℚ
  deriving DecidableEq, Repr

/-- `RegulationConstraints` dataclass (fields the optimizer reads). -/
structure RegulationConstraints where
  max_fsi : ℚ
  max_coverage : ℚ
  max_height : ℚ
  floor_height : ℚ
  min_corridor_width : ℚ
  max_travel_distance : ℚ
  min_staircase_count : ℕ
  lift_per_units : ℕ
  max_unit_depth : ℚ
  min_unit_width : ℚ
  setbacks : List (String × ℚ)
  deriving DecidableEq, Repr

/-- Default `RegulationConstraints` values. -/
def defaultRegulations : RegulationConstraints :=
  { max_fsi := 5/2
    max_coverage := 1/2
    max_height := 45
    floor_height := 3
    min_corridor_width := 9/5
    max_travel_distance := 45/2
    min_staircase_count := 2
    lift_per_units := 50
    max_unit_depth := 15
    min_unit_width := 3
    setbacks := [("front", 6), ("rear", 3), ("side1", 3), ("side2", 3)] }

/-! ## Default catalogs (Python dicts become association lists in
insertion order, which is how Python 3 dicts iterate). -/

/-- `DEFAULT_UNIT_TEMPLATES` catalog. -/
def DEFAULT_UNIT_TEMPLATES : List (String × UnitTemplate) :=
  [ ("1RK", { id := "1rk-std", name := "1 RK", bhk_type := "1RK",
              width := 11/2, depth := 5, carpet_area := 26, super_built_up := 35 }),
    ("1BHK", { id := "1bhk-std", name := "1 BHK", bhk_type := "1BHK",
               width := 13/2, depth := 13/2, carpet_area := 42, super_built_up := 55 }),
    ("1.5BHK", { id := "1.5bhk-std", name := "1.5 BHK", bhk_type := "1.5BHK",
                 width := 7, depth := 7, carpet_area := 52, super_built_up := 68 }),
    ("2BHK", { id := "2bhk-std", name := "2 BHK", bhk_type := "2BHK",
               width := 17/2, depth := 15/2, carpet_area := 65, super_built_up := 85 }),
    ("2.5BHK", { id := "2.5bhk-std", name := "2.5 BHK", bhk_type := "2.5BHK",
                 width := 19/2, depth := 8, carpet_area := 78, super_built_up := 100 }),
    ("3BHK", { id := "3bhk-std", name := "3 BHK", bhk_type := "3BHK",
               width := 11, depth := 17/2, carpet_area := 95, super_built_up := 125 }),
    ("4BHK", { id := "4bhk-std", name := "4 BHK", bhk_type := "4BHK",
               width := 13, depth := 19/2, carpet_area := 130, super_built_up := 170 }) ]

/-- The default 2BHK template, `DEFAULT_UNIT_TEMPLATES["2BHK"]`. -/
def defaultTwoBhk : UnitTemplate :=
  { id := "2bhk-std", name := "2 BHK", bhk_type := "2BHK",
    width := 17/2, depth := 15/2, carpet_area := 65, super_built_up := 85 }

/-- `DEFAULT_CORE_TEMPLATES["medium"]`, the only core template the layout
engine instantiates. -/
def mediumCore : CoreTemplate :=
  { id := "core-medium", width := 5, depth := 7, lift_count := 2, stair_count := 2 }

/-- Association-list lookup, mirroring `dict.get` / `in` on a Python dict
(first entry with the key; default catalogs have unique keys). -/
def alookup {α : Type} (l : List (String × α)) (k : String) : Option α :=
  (l.find? (fun e => e.1 = k)).map (·.2)

/-! ## Geometry kernel

The optimizer only ever reads a shapely polygon's `bounds`, `area`,
`centroid` (implicitly through `scale(origin='centroid')`) and
`exterior.coords`.  `PolyData` records exactly those observations.  The
polygons the synthesizer constructs are axis-aligned boxes and unions /
differences of up to three of them, for which area and centroid are
computed exactly by inclusion–exclusion. -/

/-- An axis-aligned box `box(x1, y1, x2, y2)`. -/
structure Box where
  x1 : ℚ
  y1 : ℚ
  x2 : ℚ
  y2 : ℚ
  deriving DecidableEq, Repr

/-- Area of a box (0 when degenerate, as for an empty intersection). -/
def Box.area (b : Box) : ℚ :=
  max 0 (b.x2 - b.x1) * max 0 (b.y2 - b.y1)

/-- First moment of a box about the y-axis (`area × center-x`). -/
def Box.mx (b : Box) : ℚ :=
  b.area * ((b.x1 + b.x2) / 2)

/-- First moment of a box about the x-axis (`area × center-y`). -/
def Box.my (b : Box) : ℚ :=
  b.area * ((b.y1 + b.y2) / 2)

/-- Intersection of two axis-aligned boxes (possibly degenerate). -/
def Box.inter (a b : Box) : Box :=
  ⟨max a.x1 b.x1, max a.y1 b.y1, min a.x2 b.x2, min a.y2 b.y2⟩

/-- What the optimizer observes of a shapely polygon: bounding box, area,
centroid and exterior ring. -/
structure PolyData where
  minx : ℚ
  miny : ℚ
  maxx : ℚ
  maxy : ℚ
  area : ℚ
  cx : ℚ
  cy : ℚ
  boundary : List (ℚ × ℚ)
  deriving DecidableEq, Repr

/-- The exterior ring of `box(x1, y1, x2, y2)` as shapely reports it
(closed, starting at the lower-right corner). -/
def boxRing (x1 y1 x2 y2 : ℚ) : List (ℚ × ℚ) :=
  [(x2, y1), (x2, y2), (x1, y2), (x1, y1), (x2, y1)]

/-- `PolyData` of a single box. -/
def boxPoly (x1 y1 x2 y2 : ℚ) : PolyData :=
  { minx := x1, miny := y1, maxx := x2, maxy := y2
    area := Box.area ⟨x1, y1, x2, y2⟩
    cx := (x1 + x2) / 2, cy := (y1 + y2) / 2
    boundary := boxRing x1 y1 x2 y2 }

/-- `PolyData` of `unary_union([a, b])` for two well-oriented boxes:
area and centroid by inclusion–exclusion, bounds by min/max.  The exact
exterior ring of a shapely union is not reconstructed (it is copied into
`boundary_polygon` but never read by any verified property); the bounding
ring stands in for it. -/
def union2Poly (a b : Box) : PolyData :=
  let ar := a.area + b.area - (a.inter b).area
  let mx := a.mx + b.mx - (a.inter b).mx
  let my := a.my + b.my - (a.inter b).my
  { minx := min a.x1 b.x1, miny := min a.y1 b.y1
    maxx := max a.x2 b.x2, maxy := max a.y2 b.y2
    area := ar, cx := mx / ar, cy := my / ar
    boundary := boxRing (min a.x1 b.x1) (min a.y1 b.y1) (max a.x2 b.x2) (max a.y2 b.y2) }

/-- `PolyData` of `unary_union([a, b, c])` for three well-oriented boxes. -/
def union3Poly (a b c : Box) : PolyData :=
  let ar := a.area + b.area + c.area
    - (a.inter b).area - (a.inter c).area - (b.inter c).area
    + ((a.inter b).inter c).area
  let mx := a.mx + b.mx + c.mx
    - (a.inter b).mx - (a.inter c).mx - (b.inter c).mx + ((a.inter b).inter c).mx
  let my := a.my + b.my + c.my
    - (a.inter b).my - (a.inter c).my - (b.inter c).my + ((a.inter b).inter c).my
  { minx := min a.x1 (min b.x1 c.x1), miny := min a.y1 (min b.y1 c.y1)
    maxx := max a.x2 (max b.x2 c.x2), maxy := max a.y2 (max b.y2 c.y2)
    area := ar, cx := mx / ar, cy := my / ar
    boundary := boxRing (min a.x1 (min b.x1 c.x1)) (min a.y1 (min b.y1 c.y1))
      (max a.x2 (max b.x2 c.x2)) (max a.y2 (max b.y2 c.y2)) }

/-- `shapely.affinity.scale(p, f, f, origin='centroid')`: every coordinate
moves linearly towards/away from the centroid, so the bounds scale about
`(cx, cy)` and the area is multiplied by `f²`. -/
def scalePoly (f : ℚ) (p : PolyData) : PolyData :=
  { minx := p.cx + f * (p.minx - p.cx), miny := p.cy + f * (p.miny - p.cy)
    maxx := p.cx + f * (p.maxx - p.cx), maxy := p.cy + f * (p.maxy - p.cy)
    area := p.area * f ^ 2
    cx := p.cx, cy := p.cy
    boundary := p.boundary.map (fun q => (p.cx + f * (q.1 - p.cx), p.cy + f * (q.2 - p.cy))) }

/-! ## SetbackEngine (`_apply_setbacks`)

`site_polygon.buffer(-avg_setback)` is a geometry-kernel call whose result
can be an empty geometry, a single polygon or a multi-polygon; the
decision logic the source applies to that result (lines 317–331) is what
the claims are about, so the buffer output is the input of the embedding. -/

/-- One polygon piece as observed by `_apply_setbacks` (only its area is
read by the decision logic). -/
structure GeoPoly where
  area : ℚ
  deriving DecidableEq, Repr

/-- Outcome of `site_polygon.buffer(-avg_setback)`. -/
inductive BufferResult where
  | single (p : GeoPoly)
  | multi (ps : List GeoPoly)
  deriving DecidableEq, Repr

/-- `buffered.is_empty`: a `Polygon` with no area is empty; a
`MultiPolygon` is empty when it has no parts. -/
def BufferResult.isEmpty : BufferResult → Bool
  | .single p => p.area = 0
  | .multi ps => ps.isEmpty

/-- `buffered.area` (total over all parts for a multi-polygon). -/
def BufferResult.area : BufferResult → ℚ
  | .single p => p.area
  | .multi ps => (ps.map GeoPoly.area).sum

/-- Whether the erosion split into multiple pieces. -/
def BufferResult.isMulti : BufferResult → Bool
  | .single _ => false
  | .multi _ => true

/-- `_apply_setbacks` decision logic: `None` ("no buildable region") when
the buffered shape is empty or its area is below 100; otherwise the
polygon itself, or — for a multi-polygon — its first part
(`buffered.geoms[0]`). -/
def applySetbacks (b : BufferResult) : Option GeoPoly :=
  if b.isEmpty = true ∨ b.area < 100 then none
  else
    match b with
    | .single p => some p
    | .multi ps => ps.head?

/-! ## ShapeSynthesizer (`_create_building_shape`)

`width_factor` / `depth_factor` are `0.9` in deterministic mode and a
uniform `[0.7, 1.0]` draw in randomized mode; they are passed in here so
both modes are covered. -/

/-- `_create_building_shape`: envelope polygon for a shape template.
The depth is capped at `max_unit_depth * 2 + 3` (source line 555). -/
def createBuildingShape (regs : RegulationConstraints) (shape : BuildingShape)
    (wf df maxWidth maxDepth originX originY : ℚ) : PolyData :=
  let width := maxWidth * wf
  let depth := min (maxDepth * df) (regs.max_unit_depth * 2 + 3)
  let cx := originX + maxWidth / 2
  let cy := originY + maxDepth / 2
  match shape with
  | .linear =>
      boxPoly (cx - width/2) (cy - depth/2) (cx + width/2) (cy + depth/2)
  | .lShape =>
      let wingWidth := width * (2/5)
      let wingDepth := depth * (3/5)
      union2Poly
        ⟨cx - width/2, cy - depth/2, cx + width/2, cy + depth/2 - wingDepth/2⟩
        ⟨cx + width/2 - wingWidth, cy - depth/2, cx + width/2, cy + depth/2⟩
  | .uShape =>
      let wingWidth := width * (1/4)
      union3Poly
        ⟨cx - width/2, cy - depth/2, cx - width/2 + wingWidth, cy + depth/2⟩
        ⟨cx + width/2 - wingWidth, cy - depth/2, cx + width/2, cy + depth/2⟩
        ⟨cx - width/2, cy - depth/2, cx + width/2, cy - depth/2 + wingWidth⟩

/-! ## Greedy unit packing (`_place_units_double_loaded`,
`_place_units_single_loaded`)

All three row scans share the same left-to-right cursor loop; it is
embedded once, fuel-indexed.  Python's `while` has no fuel, so the
wrapper `placeRow` runs the loop with the explicit iteration bound
`rowMeasure`; the termination theorem for claim C9 shows the outcome is
unchanged by any larger fuel, i.e. the bound is reached. -/

/-- One placement decision of a row scan: the cursor position, the placed
(clipped) width, the chosen template and the running unit counter. -/
structure RowPlace where
  uid : ℕ
  x : ℚ
  width : ℚ
  template : UnitTemplate
  deriving DecidableEq, Repr

/-- The row-scan loop body.  Per iteration (source lines 747–778 and the
two analogous loops): skip the core's horizontal span by jumping to
`core_right + 0.5`; otherwise pick `templates[unit_id % len(templates)]`
(deterministic mode), clip its width to the remaining floor width, stop
when the clipped width drops below `min_unit_width`, else record the
placement and advance by the placed width plus the fixed `0.3` gap. -/
def placeRowGo (tpl : List UnitTemplate) (endX coreL coreR minW : ℚ) :
    ℕ → ℚ → ℕ → List RowPlace × ℕ
  | 0, _, uid => ([], uid)
  | fuel + 1, x, uid =>
    if x < endX - 3 then
      if x < coreR ∧ x + 3 > coreL then
        placeRowGo tpl endX coreL coreR minW fuel (coreR + 1/2) uid
      else
        if min (tpl.getD (uid % tpl.length) defaultTwoBhk).width (endX - x) < minW then
          ([], uid)
        else
          (⟨uid, x, min (tpl.getD (uid % tpl.length) defaultTwoBhk).width (endX - x),
              tpl.getD (uid % tpl.length) defaultTwoBhk⟩
            :: (placeRowGo tpl endX coreL coreR minW fuel
                (x + min (tpl.getD (uid % tpl.length) defaultTwoBhk).width (endX - x) + 3/10)
                (uid + 1)).1,
           (placeRowGo tpl endX coreL coreR minW fuel
              (x + min (tpl.getD (uid % tpl.length) defaultTwoBhk).width (endX - x) + 3/10)
              (uid + 1)).2)
    else ([], uid)

/-- Accumulator form of the row scan, with a single recursive occurrence;
used to evaluate concrete scenarios (`placeRowGoE_spec` proves it agrees
with `placeRowGo`). -/
def placeRowGoE (tpl : List UnitTemplate) (endX coreL coreR minW : ℚ) :
    ℕ → ℚ → ℕ → List RowPlace → List RowPlace × ℕ
  | 0, _, uid, acc => (acc, uid)
  | fuel + 1, x, uid, acc =>
    if x < endX - 3 then
      if (x < coreR ∧ x + 3 > coreL)
          ∨ ¬ (min (tpl.getD (uid % tpl.length) defaultTwoBhk).width (endX - x) < minW) then
        placeRowGoE tpl endX coreL coreR minW fuel
          (if x < coreR ∧ x + 3 > coreL then coreR + 1/2
           else x + min (tpl.getD (uid % tpl.length) defaultTwoBhk).width (endX - x) + 3/10)
          (if x < coreR ∧ x + 3 > coreL then uid else uid + 1)
          (if x < coreR ∧ x + 3 > coreL then acc
           else acc ++ [⟨uid, x,
              min (tpl.getD (uid % tpl.length) defaultTwoBhk).width (endX - x),
              tpl.getD (uid % tpl.length) defaultTwoBhk⟩])
      else (acc, uid)
    else (acc, uid)

/-- Iteration bound for a row scan starting at `x`: every productive
iteration moves the cursor right by more than `3/10` (a placement
advances by `width + 0.3 ≥ 0.3`; the core jump advances by more than
`0.5`), so `⌈(endX − x)·10/3⌉` iterations suffice. -/
def rowMeasure (endX x : ℚ) : ℕ :=
  (⌈(endX - x) * 10 / 3⌉).toNat

/-- A full row scan.  Python indexes `templates[unit_id % len(templates)]`,
which raises on an empty pool and aborts the whole variant; the generator
catches that and discards the variant, so an empty pool is modelled as a
row with no placements. -/
def placeRow (tpl : List UnitTemplate) (endX coreL coreR minW x : ℚ) (uid : ℕ) :
    List RowPlace × ℕ :=
  if tpl.isEmpty then ([], uid)
  else placeRowGo tpl endX coreL coreR minW (rowMeasure endX x) x uid

/-- Build the `PlacedUnit` records of a row from its placements: each
unit's depth is `min(template.depth, max_unit_depth)` where
`max_unit_depth` is the row's available band depth, and `y` is given as a
function of that clipped depth (the bottom row hangs below the corridor by
its own depth). -/
def rowUnits (maxUnitDepth : ℚ) (yOf : ℚ → ℚ) (vent : List String)
    (row : List RowPlace) : List PlacedUnit :=
  row.map (fun rp =>
    let d := min rp.template.depth maxUnitDepth
    { id := "unit-" ++ toString rp.uid
      unit_type_id := rp.template.id
      x := rp.x, y := yOf d, width := rp.width, depth := d
      rotation := 0, floor := 0, has_balcony := false
      ventilation_sides := vent })

/-- `_place_units_double_loaded`: one row above and one row below the
central corridor; the unit counter continues from the first row into the
second, so the cyclic template draw continues as well. -/
def placeUnitsDoubleLoaded (regs : RegulationConstraints)
    (originX originY floorWidth floorDepth : ℚ) (corridor : Corridor)
    (core : PlacedCore) (tpl : List UnitTemplate) : List PlacedUnit :=
  let topDepth := originY + floorDepth - (corridor.y + corridor.depth)
  let bottomDepth := corridor.y - originY
  let maxUnitDepth := min regs.max_unit_depth (min topDepth bottomDepth)
  let coreL := core.x
  let coreR := core.x + core.width
  let endX := originX + floorWidth
  let top := placeRow tpl endX coreL coreR regs.min_unit_width originX 0
  let bottom := placeRow tpl endX coreL coreR regs.min_unit_width originX top.2
  rowUnits maxUnitDepth (fun _ => corridor.y + corridor.depth) ["N"] top.1
    ++ rowUnits maxUnitDepth (fun d => corridor.y - d) ["S"] bottom.1

/-- `_place_units_single_loaded`: a single row below the corridor. -/
def placeUnitsSingleLoaded (regs : RegulationConstraints)
    (originX originY floorWidth floorDepth : ℚ) (corridor : Corridor)
    (core : PlacedCore) (tpl : List UnitTemplate) : List PlacedUnit :=
  let availableDepth := corridor.y - originY
  let maxUnitDepth := min regs.max_unit_depth availableDepth
  let coreL := core.x
  let coreR := core.x + core.width
  let endX := originX + floorWidth
  let row := placeRow tpl endX coreL coreR regs.min_unit_width originX 0
  rowUnits maxUnitDepth (fun _ => originY) ["S", "E", "W"] row.1

/-! ## FloorPlateLayoutEngine (`_generate_floor_plate`) -/

/-- Python's `int()` on a float/rational: truncation towards zero. -/
def pyInt (q : ℚ) : ℤ :=
  if q < 0 then ⌈q⌉ else ⌊q⌋

/-- The weighted template pool (source lines 628–639): for each requested
type with positive percentage present in the catalog, `max(1,
int(percent/total · 10))` repetitions of its template; if the pool comes
out empty, fall back to the catalog's `"2BHK"` entry (Python raises
`KeyError` when that entry is absent, aborting the variant — modelled as
an empty pool, which likewise yields a unit-less, discarded variant). -/
def templatesToUse (catalog : List (String × UnitTemplate))
    (program : List (String × ℚ)) : List UnitTemplate :=
  let total := (program.map (·.2)).sum
  let pool := (program.map (fun kp =>
    match alookup catalog kp.1 with
    | some t => if 0 < kp.2 then
        List.replicate (max 1 (pyInt (kp.2 / total * 10))).toNat t
      else []
    | none => [])).flatten
  if pool.isEmpty then
    match alookup catalog "2BHK" with
    | some t => [t]
    | none => []
  else pool

/-- `_generate_floor_plate`: one central medium core, one corridor
(full-width central band when double-loaded, top-edge band when
single-loaded), greedy unit packing, and the area metrics
`total_area = envelope area`, `usable_area = Σ width·depth` over placed
units, `efficiency = usable/total` (0 when `total_area = 0`). -/
def genFloorPlate (regs : RegulationConstraints)
    (catalog : List (String × UnitTemplate)) (poly : PolyData)
    (corridorType : CorridorType) (program : List (String × ℚ)) :
    FloorPlateResult :=
  let minx := poly.minx
  let miny := poly.miny
  let floorWidth := poly.maxx - poly.minx
  let floorDepth := poly.maxy - poly.miny
  let corridorWidth := regs.min_corridor_width
  let tpl := templatesToUse catalog program
  let core : PlacedCore :=
    { id := "core-1"
      x := minx + floorWidth / 2 - mediumCore.width / 2
      y := miny + floorDepth / 2 - mediumCore.depth / 2
      width := mediumCore.width, depth := mediumCore.depth
      lift_count := mediumCore.lift_count, stair_count := mediumCore.stair_count }
  let corridor : Corridor :=
    match corridorType with
    | .doubleLoaded =>
        { x := minx, y := miny + floorDepth / 2 - corridorWidth / 2
          width := floorWidth, depth := corridorWidth, corridor_type := .doubleLoaded }
    | .singleLoaded =>
        { x := minx, y := miny + floorDepth - corridorWidth
          width := floorWidth, depth := corridorWidth, corridor_type := .singleLoaded }
  let units :=
    match corridorType with
    | .doubleLoaded =>
        placeUnitsDoubleLoaded regs minx miny floorWidth floorDepth corridor core tpl
    | .singleLoaded =>
        placeUnitsSingleLoaded regs minx miny floorWidth floorDepth corridor core tpl
  let totalArea := poly.area
  let usableArea := (units.map (fun u => u.width * u.depth)).sum
  { floor_number := 0
    units := units
    cores := [core]
    corridors := [corridor]
    boundary_polygon := poly.boundary
    total_area := totalArea
    usable_area := usableArea
    efficiency := if 0 < totalArea then usableArea / totalArea else 0 }

/-! ## BHK lookup, unit mix and carpet areas -/

/-- `_get_bhk_from_unit_id`: linear scan of the catalog for a template
with the given id, returning its key; `"2BHK"` when nothing matches. -/
def getBhkFromUnitId (catalog : List (String × UnitTemplate))
    (unitTypeId : String) : String :=
  match catalog.find? (fun e => e.2.id = unitTypeId) with
  | some e => e.1
  | none => "2BHK"

/-- Carpet area charged for one placed unit (source lines 502–505):
`unit_templates.get(bhk, DEFAULT_UNIT_TEMPLATES["2BHK"]).carpet_area`. -/
def carpetOf (catalog : List (String × UnitTemplate)) (unitTypeId : String) : ℚ :=
  ((alookup catalog (getBhkFromUnitId catalog unitTypeId)).getD defaultTwoBhk).carpet_area

/-- `unit_mix[bhk] = unit_mix.get(bhk, 0) + num_floors` on an association
list with Python-dict insertion order. -/
def bumpKey (m : List (String × ℕ)) (k : String) (n : ℕ) : List (String × ℕ) :=
  match m with
  | [] => [(k, n)]
  | e :: rest => if e.1 = k then (e.1, e.2 + n) :: rest else e :: bumpKey rest k n

/-- The variant's unit mix (source lines 496–499). -/
def buildUnitMix (catalog : List (String × UnitTemplate))
    (units : List PlacedUnit) (numFloors : ℕ) : List (String × ℕ) :=
  units.foldl (fun m u => bumpKey m (getBhkFromUnitId catalog u.unit_type_id) numFloors) []

/-! ## VariantScorer (`_calculate_variant_score`) -/

/-- The mix-match term of `_calculate_variant_score` (source lines
906–917): skipped — contributing 0 — unless the target mix is truthy with
positive totals on both sides; otherwise `max(0, 10 − mix_error/10)` with
`mix_error = Σ |actual_pct − target_pct|` over the requested types, both
normalized to 100. -/
def mixScoreCode (unitMix : List (String × ℕ))
    (targetMix : List (String × ℚ)) : ℚ :=
  let totalTarget : ℚ := (targetMix.map (·.2)).sum
  let totalActual : ℕ := (unitMix.map (·.2)).sum
  if targetMix.isEmpty then 0
  else if 0 < totalTarget ∧ 0 < totalActual then
    max 0 (10 - ((targetMix.map (fun bp =>
      |((alookup unitMix bp.1).getD 0 : ℚ) / (totalActual : ℚ) * 100
        - bp.2 / totalTarget * 100|)).sum) / 10)
  else 0

/-- `_calculate_variant_score`: unit-count, FSI-utilization, coverage,
efficiency and mix-match terms, summed and capped at 100. -/
def calcVariantScore (regs : RegulationConstraints) (totalUnits : ℕ)
    (fsiAchieved groundCoverage efficiency : ℚ)
    (unitMix : List (String × ℕ)) (targetMix : List (String × ℚ)) : ℚ :=
  min 100 (min 30 ((totalUnits : ℚ) * (1/2))
    + min 1 (fsiAchieved / regs.max_fsi) * 25
    + min 1 (groundCoverage / regs.max_coverage) * 15
    + efficiency * 20
    + mixScoreCode unitMix targetMix)

/-- The mix term in the words of the specification (claim C7): 0 when
there is no target mix or no actual units, else `max(0, 10 −
mix_error/10)`. -/
def specMixScore (unitMix : List (String × ℕ))
    (targetMix : List (String × ℚ)) : ℚ :=
  let totalActual : ℕ := (unitMix.map (·.2)).sum
  if targetMix.isEmpty ∨ totalActual = 0 then 0
  else
    let totalTarget : ℚ := (targetMix.map (·.2)).sum
    max 0 (10 - ((targetMix.map (fun bp =>
      |((alookup unitMix bp.1).getD 0 : ℚ) / (totalActual : ℚ) * 100
        - bp.2 / totalTarget * 100|)).sum) / 10)

/-- The score formula in the words of the specification (claim C7): the
sum of the five pre-capped terms, the final sum capped at 100.  Stated
separately from `calcVariantScore` so that agreement with the source can
be proved rather than assumed. -/
def specScore (regs : RegulationConstraints) (totalUnits : ℕ)
    (fsiAchieved groundCoverage efficiency : ℚ)
    (unitMix : List (String × ℕ)) (targetMix : List (String × ℚ)) : ℚ :=
  let unitScore := min 30 ((totalUnits : ℚ) * (1/2))
  let fsiScore := min 1 (fsiAchieved / regs.max_fsi) * 25
  let coverageScore := min 1 (groundCoverage / regs.max_coverage) * 15
  let efficiencyScore := efficiency * 20
  min 100 (unitScore + fsiScore + coverageScore + efficiencyScore
    + specMixScore unitMix targetMix)

/-! ## VariantGenerator (`_generate_single_variant`, `generate_variants`) -/

/-- The per-floor copy of the representative plate (source lines 464–492):
fresh `PlacedUnit` values with the floor index changed, the same unit,
core and corridor data otherwise.  (Object-identity aspects of this copy
are modelled separately in the heap model below.) -/
def floorCopy (plate : FloorPlateResult) (floorNum : ℕ) : FloorPlateResult :=
  { plate with
    floor_number := floorNum
    units := plate.units.map (fun u => { u with floor := floorNum }) }

/-- `shape.value` strings of the modelled shape templates. -/
def shapeValueStr : BuildingShape → String
  | .linear => "linear"
  | .lShape => "l_shape"
  | .uShape => "u_shape"

/-- `_generate_single_variant` in deterministic mode (`randomize=False`,
width/depth factors `0.9`).  `sqrtFn` models `np.sqrt`, an external
numeric primitive with no exact rational counterpart; theorems that need
its defining property hypothesize it at the point of use. -/
def genSingleVariant (regs : RegulationConstraints)
    (catalog : List (String × UnitTemplate)) (siteArea : ℚ)
    (buildable : PolyData) (sqrtFn : ℚ → ℚ) (variantId : String)
    (shape : BuildingShape) (corridorType : CorridorType)
    (program : List (String × ℚ)) (numFloors : ℕ) (stiltParking : Bool) :
    Option BuildingVariant :=
  let availableWidth := buildable.maxx - buildable.minx
  let availableDepth := buildable.maxy - buildable.miny
  let bp := createBuildingShape regs shape (9/10) (9/10)
    availableWidth availableDepth buildable.minx buildable.miny
  if bp.area < 100 then none
  else
    let coverage := bp.area / siteArea
    let bp2 := if regs.max_coverage < coverage then
        scalePoly (sqrtFn (regs.max_coverage / coverage) * (19/20)) bp
      else bp
    let plate := genFloorPlate regs catalog bp2 corridorType program
    if plate.units.length = 0 then none
    else
      let startFloor := if stiltParking then 1 else 0
      let floors := (List.range numFloors).map
        (fun i => floorCopy plate (startFloor + i))
      let totalUnits := plate.units.length * numFloors
      let unitMix := buildUnitMix catalog plate.units numFloors
      let totalBuiltUp := plate.total_area
        * ((numFloors : ℚ) + (if stiltParking then 1 else 0))
      let totalCarpet :=
        ((plate.units.map (fun u => carpetOf catalog u.unit_type_id)).sum)
          * (numFloors : ℚ)
      let fsiAchieved := totalBuiltUp / siteArea
      let groundCoverage := bp2.area / siteArea
      let score := calcVariantScore regs totalUnits fsiAchieved groundCoverage
        plate.efficiency unitMix program
      some
        { id := variantId
          name := shapeValueStr shape ++ " variant"
          shape := shape
          corridor_type := corridorType
          floors := floors
          total_units := totalUnits
          unit_mix := unitMix
          total_built_up_area := totalBuiltUp
          total_carpet_area := totalCarpet
          fsi_achieved := fsiAchieved
          ground_coverage := groundCoverage
          score := score }

/-- The fixed shape × corridor sweep order of `generate_variants`
(shapes `[LINEAR, L, U]`, corridor types `[DOUBLE, SINGLE]`, nested in
that order). -/
def sweepPairs : List (BuildingShape × CorridorType) :=
  [(.linear, .doubleLoaded), (.linear, .singleLoaded),
   (.lShape, .doubleLoaded), (.lShape, .singleLoaded),
   (.uShape, .doubleLoaded), (.uShape, .singleLoaded)]

/-- The template sweep of `generate_variants`: one attempt per pair while
fewer than `num_variants` variants exist; a variant is kept only when
`total_units > 0`; the collected count doubles as the `variant_id`
counter. -/
def sweepVariants (regs : RegulationConstraints)
    (catalog : List (String × UnitTemplate)) (siteArea : ℚ)
    (buildable : PolyData) (sqrtFn : ℚ → ℚ) (program : List (String × ℚ))
    (numFloors numVariants : ℕ) (stiltParking : Bool) : List BuildingVariant :=
  sweepPairs.foldl (fun acc pr =>
    if numVariants ≤ acc.length then acc
    else
      match genSingleVariant regs catalog siteArea buildable sqrtFn
        ("variant-" ++ toString (acc.length + 1)) pr.1 pr.2 program
        numFloors stiltParking with
      | some v => if 0 < v.total_units then acc ++ [v] else acc
      | none => acc) []

/-- The random-fallback loop.  Each randomized attempt draws shape,
corridor type, width/depth factors and per-unit templates from the
process RNG; an attempt's outcome is therefore supplied as an oracle
entry: `none` models an attempt that raised (aborting the loop), `some
none` an attempt that returned no variant, `some (some v)` a produced
variant.  Python loops while fewer variants than requested exist (and
thus spins forever on an endless run of failed attempts); the embedding
consumes the finite oracle. -/
def fallbackLoop (numVariants : ℕ) :
    List BuildingVariant → List (Option (Option BuildingVariant)) →
    List BuildingVariant
  | acc, [] => acc
  | acc, a :: rest =>
    if acc.length < numVariants then
      match a with
      | none => acc
      | some none => fallbackLoop numVariants acc rest
      | some (some v) =>
          fallbackLoop numVariants (if 0 < v.total_units then acc ++ [v] else acc) rest
    else acc

/-- Stable insertion keeping scores descending (`list.sort` with
`reverse=True` on the score key is a stable descending sort). -/
def insertByScore (v : BuildingVariant) :
    List BuildingVariant → List BuildingVariant
  | [] => [v]
  | w :: rest =>
      if w.score < v.score then v :: w :: rest else w :: insertByScore v rest

/-- Stable sort of the variants by score, best first. -/
def sortByScoreDesc (l : List BuildingVariant) : List BuildingVariant :=
  l.foldr insertByScore []

/-- `shape.value.replace('_', ' ').title()` for the modelled shapes. -/
def shapeTitle : BuildingShape → String
  | .linear => "Linear"
  | .lShape => "L Shape"
  | .uShape => "U Shape"

/-- The friendly display names assigned after ranking:
`Option {chr(65+i)}: {title}`. -/
def assignNames (l : List BuildingVariant) : List BuildingVariant :=
  ((List.range l.length).zip l).map (fun p =>
    { p.2 with name := "Option " ++ String.singleton (Char.ofNat (65 + p.1))
        ++ ": " ++ shapeTitle p.2.shape })

/-- `generate_variants` (source lines 333–415): with no buildable region
the result is the empty list, before any attempt is made; otherwise the
template sweep, the random fallback, the descending sort by score and the
display-name pass. -/
def generateVariants (regs : RegulationConstraints)
    (catalog : List (String × UnitTemplate)) (siteArea : ℚ)
    (buildable : Option PolyData) (sqrtFn : ℚ → ℚ)
    (program : List (String × ℚ)) (numFloors numVariants : ℕ)
    (stiltParking : Bool)
    (randomAttempts : List (Option (Option BuildingVariant))) :
    List BuildingVariant :=
  match buildable with
  | none => []
  | some bp =>
      let vs := sweepVariants regs catalog siteArea bp sqrtFn program
        numFloors numVariants stiltParking
      let vs2 := fallbackLoop numVariants vs randomAttempts
      assignNames (sortByScoreDesc vs2)

/-! ## Heap model of the floor replication (`_generate_single_variant`,
lines 461–492)

Claim C2 is about Python object identity: which objects the per-floor
`FloorPlateResult` records share.  The value-level `floorCopy` above
cannot express that, so the replication is modelled once more over an
explicit heap: objects live in stores indexed by address, and the floor
records hold addresses.  The source builds, per floor, fresh
`PlacedUnit` objects (a list comprehension of new constructor calls) but
copies the core and corridor lists shallowly (`floor_plate.cores.copy()`),
so the floor records hold fresh unit addresses and the original core and
corridor addresses. -/

/-- Mutable state of a `PlacedUnit` object. -/
structure UnitObj where
  unit_type_id : String
  x : ℚ
  y : ℚ
  width : ℚ
  depth : ℚ
  floor : ℕ
  ventilation_sides : List String
  deriving DecidableEq, Repr

/-- Mutable state of a `PlacedCore` object. -/
structure CoreObj where
  x : ℚ
  y : ℚ
  width : ℚ
  depth : ℚ
  lift_count : ℕ
  stair_count : ℕ
  deriving DecidableEq, Repr

/-- Mutable state of a `Corridor` object. -/
structure CorrObj where
  x : ℚ
  y : ℚ
  width : ℚ
  depth : ℚ
  deriving DecidableEq, Repr

/-- The object stores; an address is an index into the matching list. -/
structure Heap where
  units : List UnitObj
  cores : List CoreObj
  corridors : List CorrObj
  deriving DecidableEq, Repr

/-- A `FloorPlateResult` as an object graph: lists of addresses. -/
structure PlateRef where
  floor_number : ℕ
  unitRefs : List ℕ
  coreRefs : List ℕ
  corridorRefs : List ℕ
  deriving DecidableEq, Repr

/-- Fallback object for dangling reads (Python cannot produce them). -/
def dummyUnitObj : UnitObj :=
  { unit_type_id := "", x := 0, y := 0, width := 0, depth := 0, floor := 0
    ventilation_sides := [] }

/-- One iteration of the replication loop: fresh `PlacedUnit` objects with
the floor index changed (appended to the store, yielding fresh
addresses), and shallow copies of the core and corridor address lists. -/
def copyFloor (h : Heap) (plate : PlateRef) (floorNum : ℕ) : Heap × PlateRef :=
  let base := h.units.length
  let fresh := plate.unitRefs.map
    (fun r => { h.units.getD r dummyUnitObj with floor := floorNum })
  ({ h with units := h.units ++ fresh },
   { floor_number := floorNum
     unitRefs := (List.range plate.unitRefs.length).map (fun i => base + i)
     coreRefs := plate.coreRefs
     corridorRefs := plate.corridorRefs })

/-- `for floor_num in range(start_floor, start_floor + num_floors)`:
the replication loop. -/
def replicateFloors (h : Heap) (plate : PlateRef) (startFloor : ℕ) :
    ℕ → Heap × List PlateRef
  | 0 => (h, [])
  | n + 1 =>
      let s := copyFloor h plate startFloor
      let rest := replicateFloors s.1 plate (startFloor + 1) n
      (rest.1, s.2 :: rest.2)

/-- Mutate the unit object at address `a`. -/
def setUnitObj (h : Heap) (a : ℕ) (u : UnitObj) : Heap :=
  { h with units := h.units.set a u }

/-- Mutate the core object at address `a`. -/
def setCoreObj (h : Heap) (a : ℕ) (c : CoreObj) : Heap :=
  { h with cores := h.cores.set a c }

/-- The unit objects a floor record observes. -/
def viewUnits (h : Heap) (fl : PlateRef) : List UnitObj :=
  fl.unitRefs.map (fun r => h.units.getD r dummyUnitObj)

/-- The core objects a floor record observes. -/
def viewCores (h : Heap) (fl : PlateRef) : List CoreObj :=
  fl.coreRefs.map (fun r => h.cores.getD r
    { x := 0, y := 0, width := 0, depth := 0, lift_count := 0, stair_count := 0 })

/-- Height of an envelope's bounding box. -/
def envHeight (p : PolyData) : ℚ :=
  p.maxy - p.miny

/-- Fallback `FloorPlateResult` for indexed access in theorem statements. -/
def dummyFloor : FloorPlateResult :=
  { floor_number := 0, units := [], cores := [], corridors := []
    boundary_polygon := [], total_area := 0, usable_area := 0, efficiency := 0 }

/-- Fallback `PlateRef` for indexed access in theorem statements. -/
def dummyPlateRef : PlateRef :=
  { floor_number := 0, unitRefs := [], coreRefs := [], corridorRefs := [] }

/-- A one-unit, one-core, one-corridor object store, as produced for a
minimal ground floor plate. -/
def exampleUnit : UnitObj :=
  { unit_type_id := "2bhk-std", x := 0, y := 0, width := 17/2
    depth := 15/2, floor := 0, ventilation_sides := ["N"] }

def exampleCore : CoreObj :=
  { x := 1, y := 2, width := 5, depth := 7, lift_count := 2, stair_count := 2 }

def exampleHeap : Heap :=
  { units := [exampleUnit]
    cores := [exampleCore]
    corridors := [{ x := 0, y := 0, width := 30, depth := 9/5 }] }

/-- The ground plate over `exampleHeap`: one unit, one core, one
corridor, each at address 0. -/
def examplePlate : PlateRef :=
  { floor_number := 0, unitRefs := [0], coreRefs := [0], corridorRefs := [0] }

/-! # Theorems -/

/-! ## C3 — when the setback derivation reports "no buildable region" -/

/-- C3, counterexample.  The claim says "no buildable region" is reported
in exactly three cases — empty erosion, a multi-piece erosion, or area
below 100.  An erosion that splits into two pieces of area 60 each is a
multi-piece result of total area 120, yet `_apply_setbacks` does not
report "no buildable region": it returns the first piece
(`buffered.geoms[0]`). -/
theorem applySetbacks_noRegion_cases_cex :
    ¬ (applySetbacks (.multi [⟨60⟩, ⟨60⟩]) = none ↔
        ((BufferResult.multi [⟨60⟩, ⟨60⟩]).isEmpty = true
          ∨ (BufferResult.multi [⟨60⟩, ⟨60⟩]).isMulti = true
          ∨ (BufferResult.multi [⟨60⟩, ⟨60⟩]).area < 100)) := by
  norm_num [applySetbacks, BufferResult.isEmpty, BufferResult.isMulti,
    BufferResult.area]
  exact Option.some_ne_none _

/-- C3, amended: the setback derivation reports "no buildable region" in
exactly two cases — the eroded shape is empty, or its (total) area is
below the minimum threshold of 100; a multi-piece erosion with area at
least 100 is not reported, its first piece is returned instead. -/
theorem applySetbacks_eq_none_iff (b : BufferResult) :
    applySetbacks b = none ↔ (b.isEmpty = true ∨ b.area < 100) := by
  unfold applySetbacks
  split
  · next h => simp [h]
  · next h =>
      cases b with
      | single p => simpa using h
      | multi ps =>
          cases ps with
          | nil => simp [BufferResult.isEmpty] at h
          | cons q qs => simpa using h

/-! ## C4 — the envelope depth cap -/

/-- C4, counterexample.  The claim states the synthesized envelope depth
is `min(depth_factor × available_depth, 2 × max_unit_depth +
min_corridor_width)`.  With the default regulations (`max_unit_depth =
15`, `min_corridor_width = 1.8`) and available depth 40 in deterministic
mode (`depth_factor = 0.9`), the claim predicts `min(36, 31.8) = 31.8`,
but the source caps at `max_unit_depth * 2 + 3` (a hardcoded 3), giving
an envelope of depth `min(36, 33) = 33`. -/
theorem depth_cap_claim_cex :
    envHeight (createBuildingShape defaultRegulations .linear (9/10) (9/10) 40 40 0 0)
      ≠ min (40 * (9/10))
          (2 * defaultRegulations.max_unit_depth + defaultRegulations.min_corridor_width) := by
  norm_num [envHeight, createBuildingShape, boxPoly, defaultRegulations, min_def]

/-- C4, amended: the envelope depth is capped at `2 × max_unit_depth + 3`
— a hardcoded 3-metre allowance, not the configured corridor width: for
every synthesized envelope the depth used to build the shape (the
bounding-box height of the result, for the shapes whose wings span the
full depth) equals `min(depth_factor × available_depth, 2 ×
regulations.max_unit_depth + 3)`. -/
theorem envelope_depth_cap (regs : RegulationConstraints) (shape : BuildingShape)
    (wf df maxWidth maxDepth originX originY : ℚ)
    (hd : 0 ≤ maxDepth * df) (hm : 0 ≤ regs.max_unit_depth)
    (hu : shape = BuildingShape.uShape →
      maxWidth * wf ≤ 4 * min (maxDepth * df) (regs.max_unit_depth * 2 + 3)) :
    envHeight (createBuildingShape regs shape wf df maxWidth maxDepth originX originY)
      = min (maxDepth * df) (regs.max_unit_depth * 2 + 3) := by
  have hcap : (0 : ℚ) ≤ min (maxDepth * df) (regs.max_unit_depth * 2 + 3) :=
    le_min hd (by linarith)
  cases shape with
  | linear =>
      simp only [createBuildingShape, envHeight, boxPoly]
      ring
  | lShape =>
      simp only [createBuildingShape, envHeight, union2Poly]
      rw [max_eq_right (by linarith), min_self]
      ring
  | uShape =>
      simp only [createBuildingShape, envHeight, union3Poly]
      have hw : maxWidth * wf * (1/4)
          ≤ min (maxDepth * df) (regs.max_unit_depth * 2 + 3) := by
        have := hu rfl
        linarith
      rw [max_eq_left (max_le le_rfl (by linarith)), min_self, min_self]
      ring

/-- C4 witness: a concrete U-shape synthesis at available depth 20 with
the default regulations yields an envelope of bounding-box height
`min(18, 33) = 18`. -/
theorem envelope_depth_cap_witness :
    envHeight (createBuildingShape defaultRegulations .uShape (9/10) (9/10) 20 20 0 0)
      = min (20 * (9/10)) (defaultRegulations.max_unit_depth * 2 + 3) :=
  envelope_depth_cap defaultRegulations .uShape (9/10) (9/10) 20 20 0 0
    (by norm_num) (by norm_num [defaultRegulations]) (fun _ => by norm_num [defaultRegulations])

/-! ## C8 — no buildable region means an empty result list -/

/-- C8: when the buildable region is absent, `generate_variants` returns
the empty list — before any shape attempt, random draw, or other fallible
step, and hence without raising — for every unit program, floor count,
variant count, stilt-parking flag (and every catalog, site area and
random-attempt outcome sequence). -/
theorem generateVariants_no_buildable_empty (regs : RegulationConstraints)
    (catalog : List (String × UnitTemplate)) (siteArea : ℚ) (sqrtFn : ℚ → ℚ)
    (program : List (String × ℚ)) (numFloors numVariants : ℕ)
    (stiltParking : Bool)
    (randomAttempts : List (Option (Option BuildingVariant))) :
    generateVariants regs catalog siteArea none sqrtFn program numFloors
      numVariants stiltParking randomAttempts = [] :=
  rfl

/-! ## C10 — unknown unit-type ids fall back to "2BHK" -/

/-- C10: a `unit_type_id` matching no template id in the catalog is
labelled with the fixed default `"2BHK"`; the carpet-area aggregation then
charges `unit_templates.get("2BHK", DEFAULT_UNIT_TEMPLATES["2BHK"])`
(for the default catalog, the default 2BHK template's 65 sqm), and the
variant's unit mix counts such a unit under the `"2BHK"` key. -/
theorem unknown_unit_id_defaults (catalog : List (String × UnitTemplate))
    (uid : String) (h : ∀ e ∈ catalog, e.2.id ≠ uid) :
    getBhkFromUnitId catalog uid = "2BHK"
    ∧ carpetOf catalog uid = ((alookup catalog "2BHK").getD defaultTwoBhk).carpet_area
    ∧ carpetOf DEFAULT_UNIT_TEMPLATES "no-such-template-id" = 65
    ∧ ∀ (u : PlacedUnit), u.unit_type_id = uid → ∀ numFloors,
        buildUnitMix catalog [u] numFloors = [("2BHK", numFloors)] := by
  have hb : getBhkFromUnitId catalog uid = "2BHK" := by
    unfold getBhkFromUnitId
    rw [List.find?_eq_none.mpr]
    intro e he
    simpa using h e he
  refine ⟨hb, ?_, by decide, ?_⟩
  · unfold carpetOf
    rw [hb]
  · intro u hu numFloors
    simp [buildUnitMix, bumpKey, hu, hb]

/-- C10 witness: the concrete id `"ghost-unit"` matches nothing in the
default catalog and is labelled, charged and counted as `"2BHK"`. -/
theorem unknown_unit_id_defaults_witness :
    getBhkFromUnitId DEFAULT_UNIT_TEMPLATES "ghost-unit" = "2BHK"
    ∧ carpetOf DEFAULT_UNIT_TEMPLATES "ghost-unit"
        = ((alookup DEFAULT_UNIT_TEMPLATES "2BHK").getD defaultTwoBhk).carpet_area
    ∧ carpetOf DEFAULT_UNIT_TEMPLATES "no-such-template-id" = 65
    ∧ ∀ (u : PlacedUnit), u.unit_type_id = "ghost-unit" → ∀ numFloors,
        buildUnitMix DEFAULT_UNIT_TEMPLATES [u] numFloors = [("2BHK", numFloors)] :=
  unknown_unit_id_defaults DEFAULT_UNIT_TEMPLATES "ghost-unit" (by decide)

/-! ## Row-scan lemmas and C9 — termination of the greedy packing loops -/

/-- The accumulator form agrees with the row scan. -/
theorem placeRowGoE_spec (tpl : List UnitTemplate) (endX coreL coreR minW : ℚ) :
    ∀ (fuel : ℕ) (x : ℚ) (uid : ℕ) (acc : List RowPlace),
      placeRowGoE tpl endX coreL coreR minW fuel x uid acc
        = (acc ++ (placeRowGo tpl endX coreL coreR minW fuel x uid).1,
           (placeRowGo tpl endX coreL coreR minW fuel x uid).2) := by
  intro fuel
  induction fuel with
  | zero => intro x uid acc; simp [placeRowGo, placeRowGoE]
  | succ n ih =>
      intro x uid acc
      by_cases hl : x < endX - 3
      · by_cases hj : x < coreR ∧ x + 3 > coreL
        · have hE : placeRowGoE tpl endX coreL coreR minW (n + 1) x uid acc
              = placeRowGoE tpl endX coreL coreR minW n (coreR + 1/2) uid acc := by
            rw [placeRowGoE]
            simp only [if_pos hl, if_pos (Or.inl hj), if_pos hj]
          have hG : placeRowGo tpl endX coreL coreR minW (n + 1) x uid
              = placeRowGo tpl endX coreL coreR minW n (coreR + 1/2) uid := by
            rw [placeRowGo]
            simp only [if_pos hl, if_pos hj]
          rw [hE, hG, ih]
        · by_cases hw :
            min (tpl.getD (uid % tpl.length) defaultTwoBhk).width (endX - x) < minW
          · have hcond : ¬ ((x < coreR ∧ x + 3 > coreL)
                ∨ ¬ (min (tpl.getD (uid % tpl.length) defaultTwoBhk).width (endX - x) < minW)) :=
              fun h => h.elim hj (fun hn => hn hw)
            have hE : placeRowGoE tpl endX coreL coreR minW (n + 1) x uid acc
                = (acc, uid) := by
              rw [placeRowGoE]
              simp only [if_pos hl, if_neg hcond]
            have hG : placeRowGo tpl endX coreL coreR minW (n + 1) x uid
                = ([], uid) := by
              rw [placeRowGo]
              simp only [if_pos hl, if_neg hj, if_pos hw]
            rw [hE, hG]
            simp
          · have hE : placeRowGoE tpl endX coreL coreR minW (n + 1) x uid acc
                = placeRowGoE tpl endX coreL coreR minW n
                    (x + min (tpl.getD (uid % tpl.length) defaultTwoBhk).width (endX - x) + 3/10)
                    (uid + 1)
                    (acc ++ [⟨uid, x,
                      min (tpl.getD (uid % tpl.length) defaultTwoBhk).width (endX - x),
                      tpl.getD (uid % tpl.length) defaultTwoBhk⟩]) := by
              rw [placeRowGoE]
              simp only [if_pos hl, if_pos (Or.inr hw), if_neg hj]
            have hG : placeRowGo tpl endX coreL coreR minW (n + 1) x uid
                = (⟨uid, x, min (tpl.getD (uid % tpl.length) defaultTwoBhk).width (endX - x),
                      tpl.getD (uid % tpl.length) defaultTwoBhk⟩
                    :: (placeRowGo tpl endX coreL coreR minW n
                        (x + min (tpl.getD (uid % tpl.length) defaultTwoBhk).width (endX - x) + 3/10)
                        (uid + 1)).1,
                   (placeRowGo tpl endX coreL coreR minW n
                      (x + min (tpl.getD (uid % tpl.length) defaultTwoBhk).width (endX - x) + 3/10)
                      (uid + 1)).2) := by
              rw [placeRowGo]
              simp only [if_pos hl, if_neg hj, if_neg hw]
            rw [hE, hG, ih]
            simp
      · have hE : placeRowGoE tpl endX coreL coreR minW (n + 1) x uid acc
            = (acc, uid) := by
          rw [placeRowGoE]
          simp only [if_neg hl]
        have hG : placeRowGo tpl endX coreL coreR minW (n + 1) x uid = ([], uid) := by
          rw [placeRowGo]
          simp only [if_neg hl]
        rw [hE, hG]
        simp

/-- Rewriting form of `placeRowGoE_spec` with an empty accumulator. -/
theorem placeRowGo_eval (tpl : List UnitTemplate) (endX coreL coreR minW : ℚ)
    (fuel : ℕ) (x : ℚ) (uid : ℕ) :
    placeRowGo tpl endX coreL coreR minW fuel x uid
      = placeRowGoE tpl endX coreL coreR minW fuel x uid [] := by
  rw [placeRowGoE_spec]
  simp

/-- Row-scan step: the loop-condition exit. -/
theorem placeRowGo_succ_end (tpl : List UnitTemplate) (endX coreL coreR minW : ℚ)
    (n : ℕ) (x : ℚ) (uid : ℕ) (hl : ¬ x < endX - 3) :
    placeRowGo tpl endX coreL coreR minW (n + 1) x uid = ([], uid) := by
  rw [placeRowGo]
  simp only [if_neg hl]

/-- Row-scan step: the core jump. -/
theorem placeRowGo_succ_jump (tpl : List UnitTemplate) (endX coreL coreR minW : ℚ)
    (n : ℕ) (x : ℚ) (uid : ℕ) (hl : x < endX - 3)
    (hj : x < coreR ∧ x + 3 > coreL) :
    placeRowGo tpl endX coreL coreR minW (n + 1) x uid
      = placeRowGo tpl endX coreL coreR minW n (coreR + 1/2) uid := by
  rw [placeRowGo]
  simp only [if_pos hl, if_pos hj]

/-- Row-scan step: the too-narrow break. -/
theorem placeRowGo_succ_break (tpl : List UnitTemplate) (endX coreL coreR minW : ℚ)
    (n : ℕ) (x : ℚ) (uid : ℕ) (hl : x < endX - 3)
    (hj : ¬ (x < coreR ∧ x + 3 > coreL))
    (hw : min (tpl.getD (uid % tpl.length) defaultTwoBhk).width (endX - x) < minW) :
    placeRowGo tpl endX coreL coreR minW (n + 1) x uid = ([], uid) := by
  rw [placeRowGo]
  simp only [if_pos hl, if_neg hj, if_pos hw]

/-- Row-scan step: a placement. -/
theorem placeRowGo_succ_place (tpl : List UnitTemplate) (endX coreL coreR minW : ℚ)
    (n : ℕ) (x : ℚ) (uid : ℕ) (hl : x < endX - 3)
    (hj : ¬ (x < coreR ∧ x + 3 > coreL))
    (hw : ¬ (min (tpl.getD (uid % tpl.length) defaultTwoBhk).width (endX - x) < minW)) :
    placeRowGo tpl endX coreL coreR minW (n + 1) x uid
      = (⟨uid, x, min (tpl.getD (uid % tpl.length) defaultTwoBhk).width (endX - x),
            tpl.getD (uid % tpl.length) defaultTwoBhk⟩
          :: (placeRowGo tpl endX coreL coreR minW n
              (x + min (tpl.getD (uid % tpl.length) defaultTwoBhk).width (endX - x) + 3/10)
              (uid + 1)).1,
         (placeRowGo tpl endX coreL coreR minW n
            (x + min (tpl.getD (uid % tpl.length) defaultTwoBhk).width (endX - x) + 3/10)
            (uid + 1)).2) := by
  rw [placeRowGo]
  simp only [if_pos hl, if_neg hj, if_neg hw]

/-- `getD` returns a member of the list or the default. -/
theorem getD_mem_or {α : Type} (l : List α) (i : ℕ) (d : α) :
    l.getD i d ∈ l ∨ l.getD i d = d := by
  by_cases h : i < l.length
  · left
    rw [List.getD_eq_getElem l d h]
    exact List.getElem_mem h
  · right
    rw [List.getD_eq_getElem?_getD, List.getElem?_eq_none (by omega)]
    rfl

/-- Every placement of a row scan has width at least `min_unit_width` and
draws its template from the pool (or the hard default). -/
theorem placeRowGo_mem (tpl : List UnitTemplate) (endX coreL coreR minW : ℚ) :
    ∀ (fuel : ℕ) (x : ℚ) (uid : ℕ) rp,
      rp ∈ (placeRowGo tpl endX coreL coreR minW fuel x uid).1 →
        minW ≤ rp.width ∧ (rp.template ∈ tpl ∨ rp.template = defaultTwoBhk) := by
  intro fuel
  induction fuel with
  | zero => intro x uid rp h; simp [placeRowGo] at h
  | succ n ih =>
      intro x uid rp h
      by_cases hl : x < endX - 3
      · by_cases hj : x < coreR ∧ x + 3 > coreL
        · rw [placeRowGo_succ_jump tpl endX coreL coreR minW n x uid hl hj] at h
          exact ih _ _ _ h
        · by_cases hw :
            min (tpl.getD (uid % tpl.length) defaultTwoBhk).width (endX - x) < minW
          · rw [placeRowGo_succ_break tpl endX coreL coreR minW n x uid hl hj hw] at h
            simp at h
          · rw [placeRowGo_succ_place tpl endX coreL coreR minW n x uid hl hj hw] at h
            rcases List.mem_cons.mp h with h | h
            · subst h
              exact ⟨not_lt.mp hw, getD_mem_or tpl (uid % tpl.length) defaultTwoBhk⟩
            · exact ih _ _ _ h
      · rw [placeRowGo_succ_end tpl endX coreL coreR minW n x uid hl] at h
        simp at h

/-- The placed widths of one row scan sum to at most the remaining floor
width: units are laid side by side and clipped to the floor. -/
theorem placeRowGo_width_sum (tpl : List UnitTemplate) (endX coreL coreR minW : ℚ)
    (hW : 0 ≤ minW) :
    ∀ (fuel : ℕ) (x : ℚ) (uid : ℕ),
      (((placeRowGo tpl endX coreL coreR minW fuel x uid).1.map RowPlace.width).sum)
        ≤ max 0 (endX - x) := by
  intro fuel
  induction fuel with
  | zero => intro x uid; simp [placeRowGo]
  | succ n ih =>
      intro x uid
      by_cases hl : x < endX - 3
      · by_cases hj : x < coreR ∧ x + 3 > coreL
        · rw [placeRowGo_succ_jump tpl endX coreL coreR minW n x uid hl hj]
          refine (ih _ _).trans (max_le_max le_rfl ?_)
          linarith [hj.1]
        · by_cases hw :
            min (tpl.getD (uid % tpl.length) defaultTwoBhk).width (endX - x) < minW
          · rw [placeRowGo_succ_break tpl endX coreL coreR minW n x uid hl hj hw]
            simp
          · rw [placeRowGo_succ_place tpl endX coreL coreR minW n x uid hl hj hw]
            have hxe : (0:ℚ) ≤ endX - x := by linarith
            have hwle : min (tpl.getD (uid % tpl.length) defaultTwoBhk).width (endX - x)
                ≤ endX - x := min_le_right _ _
            have hw0 : 0 ≤ min (tpl.getD (uid % tpl.length) defaultTwoBhk).width (endX - x) :=
              hW.trans (not_lt.mp hw)
            have h1 := ih (x + min (tpl.getD (uid % tpl.length) defaultTwoBhk).width (endX - x)
              + 3/10) (uid + 1)
            rw [max_eq_right hxe]
            rcases le_or_lt (endX - (x + min (tpl.getD (uid % tpl.length) defaultTwoBhk).width
              (endX - x) + 3/10)) 0 with hc | hc
            · rw [max_eq_left hc] at h1
              simp only [List.map_cons, List.sum_cons]
              linarith
            · rw [max_eq_right hc.le] at h1
              simp only [List.map_cons, List.sum_cons]
              linarith
      · rw [placeRowGo_succ_end tpl endX coreL coreR minW n x uid hl]
        simp

/-- While the loop condition holds, at least one more iteration fits in
the `rowMeasure` bound. -/
theorem rowMeasure_pos {endX x : ℚ} (h : x < endX - 3) : 1 ≤ rowMeasure endX x := by
  have h10 : (10 : ℚ) ≤ (endX - x) * 10 / 3 := by linarith
  have hc : (10 : ℤ) ≤ ⌈(endX - x) * 10 / 3⌉ := by
    exact_mod_cast h10.trans (Int.le_ceil _)
  unfold rowMeasure
  omega

/-- Evaluation rule for the iteration bound (the ceiling has no
`norm_num` evaluator, so witnesses pin it by its characterization). -/
theorem rowMeasure_eval {endX x : ℚ} {n : ℕ}
    (h1 : (n : ℚ) - 1 < (endX - x) * 10 / 3) (h2 : (endX - x) * 10 / 3 ≤ n) :
    rowMeasure endX x = n := by
  have hc : ⌈(endX - x) * 10 / 3⌉ = (n : ℤ) := by
    rw [Int.ceil_eq_iff]
    exact ⟨by push_cast; linarith, by push_cast; linarith⟩
  unfold rowMeasure
  omega

/-- Every cursor advance of at least `3/10` strictly shrinks the
iteration bound. -/
theorem rowMeasure_lt {endX x y : ℚ} (h : x < endX - 3) (hadv : x + 3/10 ≤ y) :
    rowMeasure endX y < rowMeasure endX x := by
  have h1 : (endX - y) * 10 / 3 ≤ (endX - x) * 10 / 3 - 1 := by linarith
  have h2 : ⌈(endX - y) * 10 / 3⌉ ≤ ⌈(endX - x) * 10 / 3 - 1⌉ := Int.ceil_mono h1
  have h3 : ⌈(endX - x) * 10 / 3 - 1⌉ = ⌈(endX - x) * 10 / 3⌉ - 1 := Int.ceil_sub_one _
  have h10 : (10 : ℚ) ≤ (endX - x) * 10 / 3 := by linarith
  have hc : (10 : ℤ) ≤ ⌈(endX - x) * 10 / 3⌉ := by
    exact_mod_cast h10.trans (Int.le_ceil _)
  unfold rowMeasure
  omega

/-- One unit of fuel beyond the iteration bound changes nothing. -/
theorem placeRowGo_fuel_succ (tpl : List UnitTemplate) (endX coreL coreR minW : ℚ)
    (hW : 0 ≤ minW) :
    ∀ (fuel : ℕ) (x : ℚ) (uid : ℕ), rowMeasure endX x ≤ fuel →
      placeRowGo tpl endX coreL coreR minW (fuel + 1) x uid
        = placeRowGo tpl endX coreL coreR minW fuel x uid := by
  intro fuel
  induction fuel with
  | zero =>
      intro x uid h
      have hl : ¬ (x < endX - 3) := fun hc => by
        have := @rowMeasure_pos endX x hc
        omega
      simp [placeRowGo, hl]
  | succ n ih =>
      intro x uid h
      by_cases hl : x < endX - 3
      · by_cases hj : x < coreR ∧ x + 3 > coreL
        · have hm : rowMeasure endX (coreR + 1/2) ≤ n := by
            have hlt : rowMeasure endX (coreR + 1/2) < rowMeasure endX x :=
              rowMeasure_lt hl (by linarith [hj.1])
            omega
          have hL : placeRowGo tpl endX coreL coreR minW (n + 1 + 1) x uid
              = placeRowGo tpl endX coreL coreR minW (n + 1) (coreR + 1/2) uid := by
            rw [placeRowGo]
            simp only [if_pos hl, if_pos hj]
          have hR : placeRowGo tpl endX coreL coreR minW (n + 1) x uid
              = placeRowGo tpl endX coreL coreR minW n (coreR + 1/2) uid := by
            rw [placeRowGo]
            simp only [if_pos hl, if_pos hj]
          rw [hL, hR]
          exact ih _ _ hm
        · by_cases hw :
            min (tpl.getD (uid % tpl.length) defaultTwoBhk).width (endX - x) < minW
          · have hL : placeRowGo tpl endX coreL coreR minW (n + 1 + 1) x uid = ([], uid) := by
              rw [placeRowGo]
              simp only [if_pos hl, if_neg hj, if_pos hw]
            have hR : placeRowGo tpl endX coreL coreR minW (n + 1) x uid = ([], uid) := by
              rw [placeRowGo]
              simp only [if_pos hl, if_neg hj, if_pos hw]
            rw [hL, hR]
          · have hw0 : 0 ≤ min (tpl.getD (uid % tpl.length) defaultTwoBhk).width (endX - x) :=
              hW.trans (not_lt.mp hw)
            have hm : rowMeasure endX
                (x + min (tpl.getD (uid % tpl.length) defaultTwoBhk).width (endX - x) + 3/10)
                ≤ n := by
              have hlt := @rowMeasure_lt endX x
                (x + min (tpl.getD (uid % tpl.length) defaultTwoBhk).width (endX - x) + 3/10)
                hl (by linarith)
              omega
            have hL : placeRowGo tpl endX coreL coreR minW (n + 1 + 1) x uid
                = (⟨uid, x, min (tpl.getD (uid % tpl.length) defaultTwoBhk).width (endX - x),
                      tpl.getD (uid % tpl.length) defaultTwoBhk⟩
                    :: (placeRowGo tpl endX coreL coreR minW (n + 1)
                        (x + min (tpl.getD (uid % tpl.length) defaultTwoBhk).width (endX - x) + 3/10)
                        (uid + 1)).1,
                   (placeRowGo tpl endX coreL coreR minW (n + 1)
                      (x + min (tpl.getD (uid % tpl.length) defaultTwoBhk).width (endX - x) + 3/10)
                      (uid + 1)).2) := by
              rw [placeRowGo]
              simp only [if_pos hl, if_neg hj, if_neg hw]
            have hR : placeRowGo tpl endX coreL coreR minW (n + 1) x uid
                = (⟨uid, x, min (tpl.getD (uid % tpl.length) defaultTwoBhk).width (endX - x),
                      tpl.getD (uid % tpl.length) defaultTwoBhk⟩
                    :: (placeRowGo tpl endX coreL coreR minW n
                        (x + min (tpl.getD (uid % tpl.length) defaultTwoBhk).width (endX - x) + 3/10)
                        (uid + 1)).1,
                   (placeRowGo tpl endX coreL coreR minW n
                      (x + min (tpl.getD (uid % tpl.length) defaultTwoBhk).width (endX - x) + 3/10)
                      (uid + 1)).2) := by
              rw [placeRowGo]
              simp only [if_pos hl, if_neg hj, if_neg hw]
            rw [hL, hR, ih _ _ hm]
      · have hL : placeRowGo tpl endX coreL coreR minW (n + 1 + 1) x uid = ([], uid) := by
          rw [placeRowGo]
          simp only [if_neg hl]
        have hR : placeRowGo tpl endX coreL coreR minW (n + 1) x uid = ([], uid) := by
          rw [placeRowGo]
          simp only [if_neg hl]
        rw [hL, hR]

/-- C9: each greedy row scan terminates.  The scan is fuel-indexed (the
Python `while` loop has no bound), and `rowMeasure` — finite for every
finite floor width — is a sufficient bound: for `min_unit_width ≥ 0` and a
non-empty template pool, every iteration either exits, advances the
cursor by the placed width plus the fixed `0.3` gap (at least `0.3`), or
jumps it past `core_right + 0.5` (more than `0.5`, and only while the
cursor is left of `core_right`, so at most once per row); hence any fuel
beyond `rowMeasure` yields the same, fixed outcome. -/
theorem row_scan_terminates (tpl : List UnitTemplate) (endX coreL coreR minW x : ℚ)
    (uid fuel : ℕ) (hW : 0 ≤ minW) (htpl : tpl ≠ [])
    (hfuel : rowMeasure endX x ≤ fuel) :
    placeRowGo tpl endX coreL coreR minW fuel x uid
      = placeRowGo tpl endX coreL coreR minW (rowMeasure endX x) x uid := by
  obtain ⟨k, rfl⟩ : ∃ k, fuel = rowMeasure endX x + k :=
    ⟨fuel - rowMeasure endX x, by omega⟩
  clear hfuel
  induction k with
  | zero => rfl
  | succ n ih =>
      rw [← Nat.add_assoc]
      rw [placeRowGo_fuel_succ tpl endX coreL coreR minW hW _ x uid (by omega)]
      exact ih

/-! ## C7 — variant score boundedness and formula -/

/-- C7: with `max_fsi > 0`, `max_coverage > 0` and nonnegative unit count,
FSI, coverage and efficiency inputs, the computed score lies in [0, 100]
— including for zero units and empty target mixes — and equals the
claimed five-term formula (`specScore`); the hypothesis that a non-empty
target mix has positive total percentage matches the claim's reading of
"no target mix". -/
theorem variant_score_bounds (regs : RegulationConstraints) (totalUnits : ℕ)
    (fsi cov eff : ℚ) (unitMix : List (String × ℕ))
    (targetMix : List (String × ℚ))
    (hfsi : 0 < regs.max_fsi) (hcov : 0 < regs.max_coverage)
    (hf : 0 ≤ fsi) (hc : 0 ≤ cov) (he : 0 ≤ eff)
    (ht : targetMix = [] ∨ 0 < (targetMix.map (·.2)).sum) :
    0 ≤ calcVariantScore regs totalUnits fsi cov eff unitMix targetMix
    ∧ calcVariantScore regs totalUnits fsi cov eff unitMix targetMix ≤ 100
    ∧ calcVariantScore regs totalUnits fsi cov eff unitMix targetMix
        = specScore regs totalUnits fsi cov eff unitMix targetMix := by
  have h1 : (0:ℚ) ≤ min 30 ((totalUnits : ℚ) * (1/2)) :=
    le_min (by norm_num) (by positivity)
  have h2 : (0:ℚ) ≤ min 1 (fsi / regs.max_fsi) :=
    le_min (by norm_num) (div_nonneg hf hfsi.le)
  have h3 : (0:ℚ) ≤ min 1 (cov / regs.max_coverage) :=
    le_min (by norm_num) (div_nonneg hc hcov.le)
  have hM : (0:ℚ) ≤ mixScoreCode unitMix targetMix := by
    simp only [mixScoreCode]
    split_ifs <;> first | norm_num | exact le_max_left _ _
  refine ⟨?_, ?_, ?_⟩
  · unfold calcVariantScore
    refine le_min (by norm_num) ?_
    linarith
  · exact min_le_left _ _
  · have hmix : mixScoreCode unitMix targetMix = specMixScore unitMix targetMix := by
      unfold mixScoreCode specMixScore
      rcases ht with h | h
      · subst h
        simp
      · have hne : targetMix.isEmpty = false := by
          cases targetMix with
          | nil => simp at h
          | cons a l => rfl
        rcases Nat.eq_zero_or_pos ((unitMix.map (·.2)).sum) with hta | hta
        · rw [if_neg (by simp [hne]), if_neg (fun hand => by omega),
            if_pos (Or.inr hta)]
        · rw [if_neg (by simp [hne]), if_pos ⟨h, hta⟩,
            if_neg (by simp [hne, hta.ne.symm])]
    unfold calcVariantScore specScore
    rw [hmix]

/-- C7 witness: a concrete scoring instance. -/
theorem variant_score_bounds_witness :
    0 ≤ calcVariantScore defaultRegulations 80 1 (3/10) (4/5)
        [("2BHK", 80)] [("2BHK", 100)]
    ∧ calcVariantScore defaultRegulations 80 1 (3/10) (4/5)
        [("2BHK", 80)] [("2BHK", 100)] ≤ 100
    ∧ calcVariantScore defaultRegulations 80 1 (3/10) (4/5)
        [("2BHK", 80)] [("2BHK", 100)]
        = specScore defaultRegulations 80 1 (3/10) (4/5)
            [("2BHK", 80)] [("2BHK", 100)] :=
  variant_score_bounds defaultRegulations 80 1 (3/10) (4/5)
    [("2BHK", 80)] [("2BHK", 100)]
    (by norm_num [defaultRegulations]) (by norm_num [defaultRegulations])
    (by norm_num) (by norm_num) (by norm_num) (Or.inr (by norm_num))

/-! ## C1 — efficiency bounds -/

/-- Usable-area bounds of one assembled row: nonnegative, and at most the
row's width sum times the band depth. -/
theorem rowUnits_usable_bounds (maxUD : ℚ) (yOf : ℚ → ℚ) (vent : List String)
    (row : List RowPlace) (hmud : 0 ≤ maxUD)
    (hrow : ∀ rp ∈ row, 0 ≤ rp.width ∧ 0 ≤ rp.template.depth) :
    0 ≤ ((rowUnits maxUD yOf vent row).map (fun u => u.width * u.depth)).sum
    ∧ ((rowUnits maxUD yOf vent row).map (fun u => u.width * u.depth)).sum
        ≤ ((row.map RowPlace.width).sum) * maxUD := by
  have hmap : (rowUnits maxUD yOf vent row).map (fun u => u.width * u.depth)
      = row.map (fun rp => rp.width * min rp.template.depth maxUD) := by
    simp [rowUnits, List.map_map]
  rw [hmap]
  constructor
  · apply List.sum_nonneg
    intro q hq
    rw [List.mem_map] at hq
    obtain ⟨rp, hrp, rfl⟩ := hq
    exact mul_nonneg (hrow rp hrp).1 (le_min (hrow rp hrp).2 hmud)
  · have h1 : (row.map (fun rp => rp.width * min rp.template.depth maxUD)).sum
        ≤ (row.map (fun rp => rp.width * maxUD)).sum := by
      apply List.sum_le_sum
      intro rp hrp
      exact mul_le_mul_of_nonneg_left (min_le_right _ _) (hrow rp hrp).1
    have h2 := List.sum_map_mul_right row RowPlace.width maxUD
    rw [h2] at h1
    exact h1

/-- Every template in the weighted pool comes from the catalog. -/
theorem templatesToUse_mem (catalog : List (String × UnitTemplate))
    (program : List (String × ℚ)) :
    ∀ t ∈ templatesToUse catalog program, ∃ e ∈ catalog, e.2 = t := by
  intro t ht
  simp only [templatesToUse, alookup] at ht
  split_ifs at ht with hp
  · -- fallback to the catalog's 2BHK entry
    cases hfind : catalog.find? (fun e => e.1 = "2BHK") with
    | none => rw [hfind] at ht; simp at ht
    | some e =>
        rw [hfind] at ht
        simp at ht
        exact ⟨e, List.mem_of_find?_eq_some hfind, ht.symm⟩
  · -- weighted pool
    rw [List.mem_flatten] at ht
    obtain ⟨l, hl, htl⟩ := ht
    rw [List.mem_map] at hl
    obtain ⟨kp, hkp, rfl⟩ := hl
    cases hfind : catalog.find? (fun e => e.1 = kp.1) with
    | none => rw [hfind] at htl; simp at htl
    | some e =>
        rw [hfind] at htl
        simp only [Option.map_some'] at htl
        split_ifs at htl
        · have := List.eq_of_mem_replicate htl
          exact ⟨e, List.mem_of_find?_eq_some hfind, this.symm⟩
        · simp at htl

/-- Usable-area bounds of one full row scan. -/
theorem placeRow_usable (tpl : List UnitTemplate) (endX coreL coreR minW x : ℚ)
    (uid : ℕ) (maxUD : ℚ) (yOf : ℚ → ℚ) (vent : List String)
    (hW : 0 ≤ minW) (hmud0 : 0 ≤ maxUD)
    (htdep : ∀ t ∈ tpl, 0 ≤ t.depth) (hx : 0 ≤ endX - x) :
    0 ≤ ((rowUnits maxUD yOf vent (placeRow tpl endX coreL coreR minW x uid).1).map
        (fun u => u.width * u.depth)).sum
    ∧ ((rowUnits maxUD yOf vent (placeRow tpl endX coreL coreR minW x uid).1).map
        (fun u => u.width * u.depth)).sum ≤ (endX - x) * maxUD := by
  unfold placeRow
  split_ifs with he
  · constructor
    · simp [rowUnits]
    · simp only [rowUnits, List.map_nil, List.sum_nil]
      positivity
  · have hrow : ∀ rp ∈ (placeRowGo tpl endX coreL coreR minW
        (rowMeasure endX x) x uid).1, 0 ≤ rp.width ∧ 0 ≤ rp.template.depth := by
      intro rp hrp
      obtain ⟨h1, h2⟩ := placeRowGo_mem tpl endX coreL coreR minW _ x uid rp hrp
      refine ⟨hW.trans h1, ?_⟩
      rcases h2 with h | h
      · exact htdep _ h
      · rw [h]
        norm_num [defaultTwoBhk]
    obtain ⟨hnn, hub⟩ := rowUnits_usable_bounds maxUD yOf vent _ hmud0 hrow
    refine ⟨hnn, hub.trans ?_⟩
    have hws := placeRowGo_width_sum tpl endX coreL coreR minW hW (rowMeasure endX x) x uid
    rw [max_eq_right hx] at hws
    exact mul_le_mul_of_nonneg_right hws hmud0

/-- Usable-area bounds of the double-loaded placement: both rows fit in
the floor's width and in the two bands left by the central corridor. -/
theorem placeUnitsDouble_usable (regs : RegulationConstraints)
    (minx miny fw fd : ℚ) (corridor : Corridor) (core : PlacedCore)
    (tpl : List UnitTemplate)
    (hW : 0 ≤ regs.min_unit_width) (htdep : ∀ t ∈ tpl, 0 ≤ t.depth)
    (hfw : 0 ≤ fw)
    (hcy : corridor.y = miny + fd/2 - regs.min_corridor_width/2)
    (hcd : corridor.depth = regs.min_corridor_width)
    (hcw : 0 ≤ regs.min_corridor_width) (hfdc : regs.min_corridor_width ≤ fd)
    (hmud : 0 ≤ regs.max_unit_depth) :
    0 ≤ ((placeUnitsDoubleLoaded regs minx miny fw fd corridor core tpl).map
        (fun u => u.width * u.depth)).sum
    ∧ ((placeUnitsDoubleLoaded regs minx miny fw fd corridor core tpl).map
        (fun u => u.width * u.depth)).sum ≤ fw * fd := by
  simp only [placeUnitsDoubleLoaded, List.map_append, List.sum_append]
  have hband : miny + fd - (corridor.y + corridor.depth) = (fd - regs.min_corridor_width)/2 := by
    rw [hcy, hcd]
    ring
  have hband2 : corridor.y - miny = (fd - regs.min_corridor_width)/2 := by
    rw [hcy]
    ring
  have hmud0 : 0 ≤ min regs.max_unit_depth
      (min (miny + fd - (corridor.y + corridor.depth)) (corridor.y - miny)) := by
    refine le_min hmud (le_min ?_ ?_)
    · rw [hband]; linarith
    · rw [hband2]; linarith
  have hmudB : min regs.max_unit_depth
      (min (miny + fd - (corridor.y + corridor.depth)) (corridor.y - miny))
      ≤ (fd - regs.min_corridor_width)/2 := by
    refine (min_le_right _ _).trans ((min_le_left _ _).trans ?_)
    rw [hband]
  have hx : (0:ℚ) ≤ minx + fw - minx := by linarith
  obtain ⟨h1a, h1b⟩ := placeRow_usable tpl (minx + fw) core.x (core.x + core.width)
    regs.min_unit_width minx 0
    (min regs.max_unit_depth
      (min (miny + fd - (corridor.y + corridor.depth)) (corridor.y - miny)))
    (fun _ => corridor.y + corridor.depth) ["N"] hW hmud0 htdep hx
  obtain ⟨h2a, h2b⟩ := placeRow_usable tpl (minx + fw) core.x (core.x + core.width)
    regs.min_unit_width minx
    (placeRow tpl (minx + fw) core.x (core.x + core.width) regs.min_unit_width minx 0).2
    (min regs.max_unit_depth
      (min (miny + fd - (corridor.y + corridor.depth)) (corridor.y - miny)))
    (fun d => corridor.y - d) ["S"] hW hmud0 htdep hx
  constructor
  · linarith
  · have hfw2 : minx + fw - minx = fw := by ring
    rw [hfw2] at h1b h2b
    have hmul : fw * (min regs.max_unit_depth
        (min (miny + fd - (corridor.y + corridor.depth)) (corridor.y - miny)))
        ≤ fw * ((fd - regs.min_corridor_width)/2) :=
      mul_le_mul_of_nonneg_left hmudB hfw
    have hcwfw : 0 ≤ fw * regs.min_corridor_width := mul_nonneg hfw hcw
    nlinarith

/-- Usable-area bounds of the single-loaded placement. -/
theorem placeUnitsSingle_usable (regs : RegulationConstraints)
    (minx miny fw fd : ℚ) (corridor : Corridor) (core : PlacedCore)
    (tpl : List UnitTemplate)
    (hW : 0 ≤ regs.min_unit_width) (htdep : ∀ t ∈ tpl, 0 ≤ t.depth)
    (hfw : 0 ≤ fw)
    (hcy : corridor.y = miny + fd - regs.min_corridor_width)
    (hcw : 0 ≤ regs.min_corridor_width) (hfdc : regs.min_corridor_width ≤ fd)
    (hmud : 0 ≤ regs.max_unit_depth) :
    0 ≤ ((placeUnitsSingleLoaded regs minx miny fw fd corridor core tpl).map
        (fun u => u.width * u.depth)).sum
    ∧ ((placeUnitsSingleLoaded regs minx miny fw fd corridor core tpl).map
        (fun u => u.width * u.depth)).sum ≤ fw * fd := by
  simp only [placeUnitsSingleLoaded]
  have hband : corridor.y - miny = fd - regs.min_corridor_width := by
    rw [hcy]
    ring
  have hmud0 : 0 ≤ min regs.max_unit_depth (corridor.y - miny) := by
    refine le_min hmud ?_
    rw [hband]
    linarith
  have hmudB : min regs.max_unit_depth (corridor.y - miny)
      ≤ fd - regs.min_corridor_width := (min_le_right _ _).trans (le_of_eq hband)
  have hx : (0:ℚ) ≤ minx + fw - minx := by linarith
  obtain ⟨h1a, h1b⟩ := placeRow_usable tpl (minx + fw) core.x (core.x + core.width)
    regs.min_unit_width minx 0 (min regs.max_unit_depth (corridor.y - miny))
    (fun _ => miny) ["S", "E", "W"] hW hmud0 htdep hx
  refine ⟨h1a, ?_⟩
  have hfw2 : minx + fw - minx = fw := by ring
  rw [hfw2] at h1b
  have hmul : fw * (min regs.max_unit_depth (corridor.y - miny))
      ≤ fw * (fd - regs.min_corridor_width) := mul_le_mul_of_nonneg_left hmudB hfw
  have hcwfw : 0 ≤ fw * regs.min_corridor_width := mul_nonneg hfw hcw
  nlinarith

/-- C1, amended: for a rectangular envelope (area equal to the bounding
box) at least as deep as the corridor, with nonnegative regulation values
and catalog template depths, the recorded efficiency lies in [0, 1].  The
claim as stated fails in general: a floor plate shallower than the
corridor yields negative clipped unit depths and a negative efficiency
(see the counterexample), and a non-rectangular envelope can push
efficiency above 1 because units packed over the bounding box may
overhang the envelope's voids. -/
theorem efficiency_unit_interval_rect (regs : RegulationConstraints)
    (catalog : List (String × UnitTemplate)) (poly : PolyData)
    (ct : CorridorType) (program : List (String × ℚ))
    (hrect : poly.area = (poly.maxx - poly.minx) * (poly.maxy - poly.miny))
    (hwx : poly.minx ≤ poly.maxx)
    (hcw : 0 ≤ regs.min_corridor_width)
    (hfd : regs.min_corridor_width ≤ poly.maxy - poly.miny)
    (hmud : 0 ≤ regs.max_unit_depth)
    (hmw : 0 ≤ regs.min_unit_width)
    (hdep : ∀ e ∈ catalog, 0 ≤ e.2.depth) :
    0 ≤ (genFloorPlate regs catalog poly ct program).efficiency
    ∧ (genFloorPlate regs catalog poly ct program).efficiency ≤ 1 := by
  have htdep : ∀ t ∈ templatesToUse catalog program, 0 ≤ t.depth := by
    intro t ht
    obtain ⟨e, he, het⟩ := templatesToUse_mem catalog program t ht
    rw [← het]
    exact hdep e he
  have hfw : 0 ≤ poly.maxx - poly.minx := by linarith
  cases ct with
  | doubleLoaded =>
      obtain ⟨h0, hB⟩ := placeUnitsDouble_usable regs poly.minx poly.miny
        (poly.maxx - poly.minx) (poly.maxy - poly.miny)
        ⟨poly.minx,
          poly.miny + (poly.maxy - poly.miny)/2 - regs.min_corridor_width/2,
          poly.maxx - poly.minx, regs.min_corridor_width, .doubleLoaded⟩
        ⟨"core-1", poly.minx + (poly.maxx - poly.minx)/2 - mediumCore.width/2,
          poly.miny + (poly.maxy - poly.miny)/2 - mediumCore.depth/2,
          mediumCore.width, mediumCore.depth, mediumCore.lift_count,
          mediumCore.stair_count⟩
        (templatesToUse catalog program) hmw htdep hfw rfl rfl hcw hfd hmud
      simp only [genFloorPlate]
      constructor
      · split_ifs with hA
        · exact div_nonneg h0 hA.le
        · exact le_refl 0
      · split_ifs with hA
        · rw [div_le_one hA, hrect]
          exact hB
        · norm_num
  | singleLoaded =>
      obtain ⟨h0, hB⟩ := placeUnitsSingle_usable regs poly.minx poly.miny
        (poly.maxx - poly.minx) (poly.maxy - poly.miny)
        ⟨poly.minx,
          poly.miny + (poly.maxy - poly.miny) - regs.min_corridor_width,
          poly.maxx - poly.minx, regs.min_corridor_width, .singleLoaded⟩
        ⟨"core-1", poly.minx + (poly.maxx - poly.minx)/2 - mediumCore.width/2,
          poly.miny + (poly.maxy - poly.miny)/2 - mediumCore.depth/2,
          mediumCore.width, mediumCore.depth, mediumCore.lift_count,
          mediumCore.stair_count⟩
        (templatesToUse catalog program) hmw htdep hfw rfl hcw hfd hmud
      simp only [genFloorPlate]
      constructor
      · split_ifs with hA
        · exact div_nonneg h0 hA.le
        · exact le_refl 0
      · split_ifs with hA
        · rw [div_le_one hA, hrect]
          exact hB
        · norm_num

/-! ## Concrete evaluation helpers

Exact rational arithmetic is evaluated by `norm_num`; the discrete parts
(catalog lookups) reduce definitionally.  The scenario used by several
witnesses is a 40 m × 30 m site with a 34 m × 24 m buildable rectangle at
(3, 3) and program `{"2BHK": 100}`: the linear envelope is the box
(4.7, 4.2)–(35.3, 25.8). -/

/-- `Int.toNat` on numerals, as a rewriting rule. -/
theorem toNat_lit (n : ℕ) : (OfNat.ofNat n : ℤ).toNat = OfNat.ofNat n := rfl

/-- Catalog lookup of the default 2BHK entry. -/
theorem lookup_twoBhk : alookup DEFAULT_UNIT_TEMPLATES "2BHK" = some defaultTwoBhk := rfl

/-- The weighted pool of the all-2BHK program: ten copies of the 2BHK
template. -/
theorem pool_all_twoBhk : (templatesToUse DEFAULT_UNIT_TEMPLATES [("2BHK", 100)])
    = List.replicate 10 defaultTwoBhk := by
  norm_num [templatesToUse, lookup_twoBhk, pyInt, toNat_lit, max_def, List.replicate]

/-- Row-scan iteration bound of the scenario envelope. -/
theorem rowMeasure_scenario : rowMeasure (353/10) (47/10) = 102 :=
  rowMeasure_eval (by norm_num) (by norm_num)

/-- BHK label of the 2BHK template id. -/
theorem bhk_of_twoBhk : getBhkFromUnitId DEFAULT_UNIT_TEMPLATES "2bhk-std" = "2BHK" := rfl

/-- Carpet area charged for the 2BHK template id. -/
theorem carpet_of_twoBhk : carpetOf DEFAULT_UNIT_TEMPLATES "2bhk-std" = 65 := rfl

/-- Unit-mix lookup arising in the scenario's score. -/
theorem mix_lookup_scenario : alookup [("2BHK", (80:ℕ))] "2BHK" = some 80 := rfl

/-- `boxPoly` projection: left bound. -/
theorem boxPoly_minx (a b c d : ℚ) : (boxPoly a b c d).minx = a := rfl

/-- `boxPoly` projection: bottom bound. -/
theorem boxPoly_miny (a b c d : ℚ) : (boxPoly a b c d).miny = b := rfl

/-- `boxPoly` projection: right bound. -/
theorem boxPoly_maxx (a b c d : ℚ) : (boxPoly a b c d).maxx = c := rfl

/-- `boxPoly` projection: top bound. -/
theorem boxPoly_maxy (a b c d : ℚ) : (boxPoly a b c d).maxy = d := rfl

/-- `boxPoly` projection: area. -/
theorem boxPoly_area (a b c d : ℚ) :
    (boxPoly a b c d).area = max 0 (c - a) * max 0 (d - b) := rfl

/-- Width of the default 2BHK template. -/
theorem defaultTwoBhk_width : defaultTwoBhk.width = 17/2 := rfl

/-- Depth of the default 2BHK template. -/
theorem defaultTwoBhk_depth : defaultTwoBhk.depth = 15/2 := rfl

/-- The all-2BHK pool is non-empty. -/
theorem pool_not_empty : (List.replicate 10 defaultTwoBhk).isEmpty = false := rfl

/-- Cyclic indexing into the all-2BHK pool always yields the 2BHK
template. -/
theorem replicate_getD_twoBhk (i : ℕ) :
    (List.replicate 10 defaultTwoBhk).getD
      (i % (List.replicate 10 defaultTwoBhk).length) defaultTwoBhk = defaultTwoBhk := by
  have h : i % (List.replicate 10 defaultTwoBhk).length < 10 := by
    rw [List.length_replicate]
    omega
  rw [List.getD_eq_getElem?_getD, List.getElem?_replicate, if_pos h]
  rfl

/-- Row-scan placement step specialized to the all-2BHK pool: whenever at
least a full template width remains before `endX`, the placed width is
`17/2` and the cursor advances by `44/5`. -/
theorem pool_place_step (endX coreL coreR : ℚ) (n : ℕ) (x : ℚ) (uid : ℕ)
    (hl : x < endX - 3) (hj : ¬ (x < coreR ∧ x + 3 > coreL)) (hx : 17/2 ≤ endX - x) :
    placeRowGo (List.replicate 10 defaultTwoBhk) endX coreL coreR 3 (n + 1) x uid
      = (⟨uid, x, 17/2, defaultTwoBhk⟩
          :: (placeRowGo (List.replicate 10 defaultTwoBhk) endX coreL coreR 3 n
              (x + 44/5) (uid + 1)).1,
         (placeRowGo (List.replicate 10 defaultTwoBhk) endX coreL coreR 3 n
            (x + 44/5) (uid + 1)).2) := by
  have hg := replicate_getD_twoBhk uid
  have hmin : min ((List.replicate 10 defaultTwoBhk).getD
      (uid % (List.replicate 10 defaultTwoBhk).length) defaultTwoBhk).width (endX - x)
      = 17/2 := by
    rw [hg]
    show min ((17:ℚ)/2) (endX - x) = 17/2
    exact min_eq_left hx
  have hw : ¬ (min ((List.replicate 10 defaultTwoBhk).getD
      (uid % (List.replicate 10 defaultTwoBhk).length) defaultTwoBhk).width (endX - x)
      < 3) := by
    rw [hmin]
    norm_num
  have hadv : x + 17/2 + 3/10 = x + 44/5 := by ring
  rw [placeRowGo_succ_place _ _ _ _ _ _ _ _ hl hj hw, hmin, hg, hadv]

/-- Full evaluation of the scenario row scan (envelope 4.7–35.3, core
17.5–22.5): three full-width placements, one core jump, one clipped
placement, for any starting unit counter. -/
theorem scenario_row_eval (uid : ℕ) :
    placeRowGo (List.replicate 10 defaultTwoBhk) (353/10) (35/2) (45/2) 3 102 (47/10) uid
      = ([⟨uid, 47/10, 17/2, defaultTwoBhk⟩, ⟨uid + 1, 27/2, 17/2, defaultTwoBhk⟩,
          ⟨uid + 2, 23, 17/2, defaultTwoBhk⟩, ⟨uid + 3, 159/5, 7/2, defaultTwoBhk⟩],
         uid + 4) := by
  have e6 : placeRowGo (List.replicate 10 defaultTwoBhk) (353/10) (35/2) (45/2) 3 97
      (178/5) (uid + 4) = ([], uid + 4) :=
    placeRowGo_succ_end _ _ _ _ _ _ _ _ (by norm_num)
  have e5 : placeRowGo (List.replicate 10 defaultTwoBhk) (353/10) (35/2) (45/2) 3 98
      (159/5) (uid + 3) = ([⟨uid + 3, 159/5, 7/2, defaultTwoBhk⟩], uid + 4) := by
    have hg := replicate_getD_twoBhk (uid + 3)
    have hmin : min ((List.replicate 10 defaultTwoBhk).getD
        ((uid + 3) % (List.replicate 10 defaultTwoBhk).length) defaultTwoBhk).width
        ((353:ℚ)/10 - 159/5) = 7/2 := by
      rw [hg]
      show min ((17:ℚ)/2) (353/10 - 159/5) = 7/2
      norm_num [min_def]
    have hw : ¬ (min ((List.replicate 10 defaultTwoBhk).getD
        ((uid + 3) % (List.replicate 10 defaultTwoBhk).length) defaultTwoBhk).width
        ((353:ℚ)/10 - 159/5) < 3) := by
      rw [hmin]
      norm_num
    rw [placeRowGo_succ_place _ _ _ _ _ _ _ _ (by norm_num) (by norm_num) hw, hmin, hg,
      show (159/5 : ℚ) + 7/2 + 3/10 = 178/5 by norm_num,
      show uid + 3 + 1 = uid + 4 by omega, e6]
  have e4 : placeRowGo (List.replicate 10 defaultTwoBhk) (353/10) (35/2) (45/2) 3 99
      23 (uid + 2) = ([⟨uid + 2, 23, 17/2, defaultTwoBhk⟩,
        ⟨uid + 3, 159/5, 7/2, defaultTwoBhk⟩], uid + 4) := by
    rw [pool_place_step _ _ _ _ _ _ (by norm_num) (by norm_num) (by norm_num),
      show (23 : ℚ) + 44/5 = 159/5 by norm_num,
      show uid + 2 + 1 = uid + 3 by omega, e5]
  have e3 : placeRowGo (List.replicate 10 defaultTwoBhk) (353/10) (35/2) (45/2) 3 100
      (223/10) (uid + 2) = ([⟨uid + 2, 23, 17/2, defaultTwoBhk⟩,
        ⟨uid + 3, 159/5, 7/2, defaultTwoBhk⟩], uid + 4) := by
    rw [placeRowGo_succ_jump _ _ _ _ _ _ _ _ (by norm_num)
        (by constructor <;> norm_num),
      show (45:ℚ)/2 + 1/2 = 23 by norm_num, e4]
  have e2 : placeRowGo (List.replicate 10 defaultTwoBhk) (353/10) (35/2) (45/2) 3 101
      (27/2) (uid + 1) = ([⟨uid + 1, 27/2, 17/2, defaultTwoBhk⟩,
        ⟨uid + 2, 23, 17/2, defaultTwoBhk⟩,
        ⟨uid + 3, 159/5, 7/2, defaultTwoBhk⟩], uid + 4) := by
    rw [pool_place_step _ _ _ _ _ _ (by norm_num) (by norm_num) (by norm_num),
      show (27/2 : ℚ) + 44/5 = 223/10 by norm_num,
      show uid + 1 + 1 = uid + 2 by omega, e3]
  rw [show (102 : ℕ) = 101 + 1 from rfl,
    pool_place_step _ _ _ _ _ _ (by norm_num) (by norm_num) (by norm_num),
    show (47/10 : ℚ) + 44/5 = 27/2 by norm_num, e2]

/-- Envelope of the scenario: linear shape over the 34 × 24 buildable
rectangle at (3, 3) with factors 0.9. -/
theorem scenario_bp_eval :
    createBuildingShape defaultRegulations .linear (9/10) (9/10) 34 24 3 3
      = boxPoly (47/10) (21/5) (353/10) (129/5) := by
  norm_num [createBuildingShape, boxPoly, boxRing, defaultRegulations, min_def,
    Box.area, max_def]

/-- The scenario floor plate packs exactly 8 units (4 per row). -/
theorem scenario_units_len :
    (genFloorPlate defaultRegulations DEFAULT_UNIT_TEMPLATES
      (boxPoly (47/10) (21/5) (353/10) (129/5)) .doubleLoaded
      [("2BHK", 100)]).units.length = 8 := by
  norm_num [genFloorPlate, boxPoly_minx, boxPoly_miny, boxPoly_maxx, boxPoly_maxy,
    boxPoly_area, pool_all_twoBhk, defaultRegulations, mediumCore,
    placeUnitsDoubleLoaded, placeRow, pool_not_empty, rowMeasure_scenario,
    scenario_row_eval, rowUnits, defaultTwoBhk_depth, min_def, max_def]

/-- The default maximum coverage. -/
theorem defaultRegs_max_coverage : defaultRegulations.max_coverage = 1/2 := rfl

/-- The scenario produces a variant: 40 m × 30 m site (area 10000 chosen
large so no coverage scaling occurs), linear shape, double-loaded
corridor, ten floors on stilt parking. -/
theorem scenario_variant_isSome :
    (genSingleVariant defaultRegulations DEFAULT_UNIT_TEMPLATES 10000
      (boxPoly 3 3 37 27) (fun _ => 0) "variant-1" .linear .doubleLoaded
      [("2BHK", 100)] 10 true).isSome = true := by
  norm_num [genSingleVariant, boxPoly_minx, boxPoly_miny, boxPoly_maxx, boxPoly_maxy,
    boxPoly_area, scenario_bp_eval, scenario_units_len, defaultRegs_max_coverage,
    max_def]

/-- Row-scan iteration bound of the shallow counterexample envelope. -/
theorem rowMeasure_cex : rowMeasure 63 0 = 210 :=
  rowMeasure_eval (by norm_num) (by norm_num)

/-- Full evaluation of the 63-wide counterexample row scan (core 29–34):
six full-width placements and one core jump, for any starting unit
counter. -/
theorem cex_row_eval (uid : ℕ) :
    placeRowGo (List.replicate 10 defaultTwoBhk) 63 29 34 3 210 0 uid
      = ([⟨uid, 0, 17/2, defaultTwoBhk⟩, ⟨uid + 1, 44/5, 17/2, defaultTwoBhk⟩,
          ⟨uid + 2, 88/5, 17/2, defaultTwoBhk⟩, ⟨uid + 3, 69/2, 17/2, defaultTwoBhk⟩,
          ⟨uid + 4, 433/10, 17/2, defaultTwoBhk⟩, ⟨uid + 5, 521/10, 17/2, defaultTwoBhk⟩],
         uid + 6) := by
  have e8 : placeRowGo (List.replicate 10 defaultTwoBhk) 63 29 34 3 203 (609/10)
      (uid + 6) = ([], uid + 6) :=
    placeRowGo_succ_end _ _ _ _ _ _ _ _ (by norm_num)
  have e7 : placeRowGo (List.replicate 10 defaultTwoBhk) 63 29 34 3 204 (521/10)
      (uid + 5) = ([⟨uid + 5, 521/10, 17/2, defaultTwoBhk⟩], uid + 6) := by
    rw [pool_place_step _ _ _ _ _ _ (by norm_num) (by norm_num) (by norm_num),
      show (521/10 : ℚ) + 44/5 = 609/10 by norm_num,
      show uid + 5 + 1 = uid + 6 by omega, e8]
  have e6 : placeRowGo (List.replicate 10 defaultTwoBhk) 63 29 34 3 205 (433/10)
      (uid + 4) = ([⟨uid + 4, 433/10, 17/2, defaultTwoBhk⟩,
        ⟨uid + 5, 521/10, 17/2, defaultTwoBhk⟩], uid + 6) := by
    rw [pool_place_step _ _ _ _ _ _ (by norm_num) (by norm_num) (by norm_num),
      show (433/10 : ℚ) + 44/5 = 521/10 by norm_num,
      show uid + 4 + 1 = uid + 5 by omega, e7]
  have e5 : placeRowGo (List.replicate 10 defaultTwoBhk) 63 29 34 3 206 (69/2)
      (uid + 3) = ([⟨uid + 3, 69/2, 17/2, defaultTwoBhk⟩,
        ⟨uid + 4, 433/10, 17/2, defaultTwoBhk⟩,
        ⟨uid + 5, 521/10, 17/2, defaultTwoBhk⟩], uid + 6) := by
    rw [pool_place_step _ _ _ _ _ _ (by norm_num) (by norm_num) (by norm_num),
      show (69/2 : ℚ) + 44/5 = 433/10 by norm_num,
      show uid + 3 + 1 = uid + 4 by omega, e6]
  have e4 : placeRowGo (List.replicate 10 defaultTwoBhk) 63 29 34 3 207 (132/5)
      (uid + 3) = ([⟨uid + 3, 69/2, 17/2, defaultTwoBhk⟩,
        ⟨uid + 4, 433/10, 17/2, defaultTwoBhk⟩,
        ⟨uid + 5, 521/10, 17/2, defaultTwoBhk⟩], uid + 6) := by
    rw [placeRowGo_succ_jump _ _ _ _ _ _ _ _ (by norm_num)
        (by constructor <;> norm_num),
      show (34 : ℚ) + 1/2 = 69/2 by norm_num, e5]
  have e3 : placeRowGo (List.replicate 10 defaultTwoBhk) 63 29 34 3 208 (88/5)
      (uid + 2) = ([⟨uid + 2, 88/5, 17/2, defaultTwoBhk⟩,
        ⟨uid + 3, 69/2, 17/2, defaultTwoBhk⟩,
        ⟨uid + 4, 433/10, 17/2, defaultTwoBhk⟩,
        ⟨uid + 5, 521/10, 17/2, defaultTwoBhk⟩], uid + 6) := by
    rw [pool_place_step _ _ _ _ _ _ (by norm_num) (by norm_num) (by norm_num),
      show (88/5 : ℚ) + 44/5 = 132/5 by norm_num,
      show uid + 2 + 1 = uid + 3 by omega, e4]
  have e2 : placeRowGo (List.replicate 10 defaultTwoBhk) 63 29 34 3 209 (44/5)
      (uid + 1) = ([⟨uid + 1, 44/5, 17/2, defaultTwoBhk⟩,
        ⟨uid + 2, 88/5, 17/2, defaultTwoBhk⟩,
        ⟨uid + 3, 69/2, 17/2, defaultTwoBhk⟩,
        ⟨uid + 4, 433/10, 17/2, defaultTwoBhk⟩,
        ⟨uid + 5, 521/10, 17/2, defaultTwoBhk⟩], uid + 6) := by
    rw [pool_place_step _ _ _ _ _ _ (by norm_num) (by norm_num) (by norm_num),
      show (44/5 : ℚ) + 44/5 = 88/5 by norm_num,
      show uid + 1 + 1 = uid + 2 by omega, e3]
  rw [show (210 : ℕ) = 209 + 1 from rfl,
    pool_place_step _ _ _ _ _ _ (by norm_num) (by norm_num) (by norm_num),
    show (0 : ℚ) + 44/5 = 44/5 by norm_num, e2]

/-- C1, counterexample.  The layout engine, run on a rectangular envelope
63 × 1.6 (area 100.8 ≥ 100, so the generator would accept it) with the
default regulations and an all-2BHK program, records a negative
efficiency: the floor plate is shallower than the 1.8-wide corridor, so
each placed unit's clipped depth — `min(template.depth, max_unit_depth)`
with a negative band depth — is negative, and `usable_area` is negative
while `total_area` is positive. -/
theorem efficiency_unit_interval_cex :
    (genFloorPlate defaultRegulations DEFAULT_UNIT_TEMPLATES
      (boxPoly 0 0 63 (8/5)) .doubleLoaded [("2BHK", 100)]).efficiency < 0 := by
  norm_num [genFloorPlate, boxPoly_minx, boxPoly_miny, boxPoly_maxx, boxPoly_maxy,
    boxPoly_area, pool_all_twoBhk, defaultRegulations, mediumCore,
    placeUnitsDoubleLoaded, placeRow, pool_not_empty, rowMeasure_cex, cex_row_eval,
    rowUnits, defaultTwoBhk_depth, min_def, max_def]

/-- C1 witness: a concrete 30 × 20 rectangular envelope with the default
regulations has efficiency within [0, 1]. -/
theorem efficiency_unit_interval_rect_witness :
    0 ≤ (genFloorPlate defaultRegulations DEFAULT_UNIT_TEMPLATES
        (boxPoly 3 3 33 23) .doubleLoaded [("2BHK", 100)]).efficiency
    ∧ (genFloorPlate defaultRegulations DEFAULT_UNIT_TEMPLATES
        (boxPoly 3 3 33 23) .doubleLoaded [("2BHK", 100)]).efficiency ≤ 1 :=
  efficiency_unit_interval_rect defaultRegulations DEFAULT_UNIT_TEMPLATES
    (boxPoly 3 3 33 23) .doubleLoaded [("2BHK", 100)]
    (by norm_num [boxPoly, Box.area]) (by norm_num [boxPoly])
    (by norm_num [defaultRegulations]) (by norm_num [boxPoly, defaultRegulations])
    (by norm_num [defaultRegulations]) (by norm_num [defaultRegulations])
    (by intro e he; fin_cases he <;> norm_num)

/-! ## C5 — ground coverage never exceeds the maximum -/

/-- C5: every generated variant records `ground_coverage ≤ max_coverage`.
When the synthesized envelope's coverage exceeds the maximum, the
polygon is scaled about its centroid by `sqrt(max_coverage/coverage) ×
0.95`, multiplying its area by exactly `(max_coverage/coverage) × 0.9025`;
`sqrtFn` models `np.sqrt`, hypothesized to square back to its argument at
the one point it is used. -/
theorem ground_coverage_le_max (regs : RegulationConstraints)
    (catalog : List (String × UnitTemplate)) (siteArea : ℚ)
    (buildable : PolyData) (sqrtFn : ℚ → ℚ) (variantId : String)
    (shape : BuildingShape) (ct : CorridorType) (program : List (String × ℚ))
    (numFloors : ℕ) (stiltParking : Bool) (v : BuildingVariant)
    (hsite : 0 < siteArea) (hmc : 0 ≤ regs.max_coverage)
    (hsqrt : regs.max_coverage <
        (createBuildingShape regs shape (9/10) (9/10)
          (buildable.maxx - buildable.minx) (buildable.maxy - buildable.miny)
          buildable.minx buildable.miny).area / siteArea →
      (sqrtFn (regs.max_coverage /
          ((createBuildingShape regs shape (9/10) (9/10)
            (buildable.maxx - buildable.minx) (buildable.maxy - buildable.miny)
            buildable.minx buildable.miny).area / siteArea))) ^ 2
        = regs.max_coverage /
          ((createBuildingShape regs shape (9/10) (9/10)
            (buildable.maxx - buildable.minx) (buildable.maxy - buildable.miny)
            buildable.minx buildable.miny).area / siteArea))
    (hv : genSingleVariant regs catalog siteArea buildable sqrtFn variantId
        shape ct program numFloors stiltParking = some v) :
    v.ground_coverage ≤ regs.max_coverage := by
  simp only [genSingleVariant] at hv
  set bp := createBuildingShape regs shape (9/10) (9/10)
    (buildable.maxx - buildable.minx) (buildable.maxy - buildable.miny)
    buildable.minx buildable.miny with hbp
  set s1 : ℕ := if stiltParking = true then 1 else 0 with hs1
  set s2 : ℚ := if stiltParking = true then 1 else 0 with hs2
  split_ifs at hv with h100 hscale hunit hunit
  all_goals try exact Option.noConfusion hv
  · -- scaled branch
    have hba : (100 : ℚ) ≤ bp.area := not_lt.mp h100
    obtain rfl := Option.some.inj hv
    show (scalePoly (sqrtFn (regs.max_coverage / (bp.area / siteArea)) * (19/20)) bp).area
        / siteArea ≤ regs.max_coverage
    have hA : bp.area ≠ 0 := by linarith
    have hS : siteArea ≠ 0 := ne_of_gt hsite
    have key : (scalePoly (sqrtFn (regs.max_coverage / (bp.area / siteArea)) * (19/20)) bp).area
        / siteArea = regs.max_coverage * (361/400) := by
      simp only [scalePoly]
      rw [mul_pow, hsqrt hscale]
      field_simp
      ring
    rw [key]
    linarith
  · -- unscaled branch
    obtain rfl := Option.some.inj hv
    show bp.area / siteArea ≤ regs.max_coverage
    exact not_lt.mp hscale

/-- C5 witness: the scenario's generated variant records ground coverage
at most the configured maximum of 0.5 (no scaling branch is taken, so the
square-root hypothesis is discharged vacuously). -/
theorem ground_coverage_le_max_witness :
    ∃ v, genSingleVariant defaultRegulations DEFAULT_UNIT_TEMPLATES 10000
        (boxPoly 3 3 37 27) (fun _ => 0) "variant-1" .linear .doubleLoaded
        [("2BHK", 100)] 10 true = some v
      ∧ v.ground_coverage ≤ defaultRegulations.max_coverage := by
  obtain ⟨v, hv⟩ := Option.isSome_iff_exists.mp scenario_variant_isSome
  exact ⟨v, hv,
    ground_coverage_le_max defaultRegulations DEFAULT_UNIT_TEMPLATES 10000
      (boxPoly 3 3 37 27) (fun _ => 0) "variant-1" .linear .doubleLoaded
      [("2BHK", 100)] 10 true v (by norm_num)
      (by norm_num [defaultRegulations])
      (fun h => absurd h (by norm_num [createBuildingShape, boxPoly, Box.area,
        defaultRegulations, min_def]))
      hv⟩

/-! ## C6 — floor replication counts -/

/-- C6: a successfully generated variant with requested floor count `n`
has exactly `n` floor records, indexed from 1 when stilt parking is on
and from 0 otherwise; every floor carries the same number of units as the
representative plate (some positive `m`), and `total_units = m × n`
exactly. -/
theorem floor_replication_counts (regs : RegulationConstraints)
    (catalog : List (String × UnitTemplate)) (siteArea : ℚ)
    (buildable : PolyData) (sqrtFn : ℚ → ℚ) (variantId : String)
    (shape : BuildingShape) (ct : CorridorType) (program : List (String × ℚ))
    (numFloors : ℕ) (stiltParking : Bool) (v : BuildingVariant)
    (hmw : 0 ≤ regs.min_unit_width)
    (hv : genSingleVariant regs catalog siteArea buildable sqrtFn variantId
        shape ct program numFloors stiltParking = some v) :
    ∃ m, 0 < m
      ∧ v.floors.length = numFloors
      ∧ v.total_units = m * numFloors
      ∧ ∀ i, i < numFloors →
          (v.floors.getD i dummyFloor).floor_number
              = (if stiltParking then 1 else 0) + i
          ∧ (v.floors.getD i dummyFloor).units.length = m := by
  simp only [genSingleVariant] at hv
  set bp := createBuildingShape regs shape (9/10) (9/10)
    (buildable.maxx - buildable.minx) (buildable.maxy - buildable.miny)
    buildable.minx buildable.miny with hbp
  set s1 : ℕ := if stiltParking = true then 1 else 0 with hs1
  set s2 : ℚ := if stiltParking = true then 1 else 0 with hs2
  split_ifs at hv with h100 hscale hunit hunit
  all_goals try exact Option.noConfusion hv
  all_goals
    obtain rfl := Option.some.inj hv
  all_goals
    refine ⟨_, Nat.pos_of_ne_zero hunit, by simp, rfl, ?_⟩
  all_goals
    intro i hi
  all_goals
    constructor
  all_goals
    simp [List.getD_eq_getElem?_getD, List.getElem?_map, List.getElem?_range,
      hi, floorCopy]

/-- C6 witness: the scenario's generated variant has exactly 10 floors,
numbered 1–10 (stilt parking on), with the same unit count per floor and
`total_units` the exact product. -/
theorem floor_replication_counts_witness :
    ∃ v, genSingleVariant defaultRegulations DEFAULT_UNIT_TEMPLATES 10000
        (boxPoly 3 3 37 27) (fun _ => 0) "variant-1" .linear .doubleLoaded
        [("2BHK", 100)] 10 true = some v
      ∧ ∃ m, 0 < m
        ∧ v.floors.length = 10
        ∧ v.total_units = m * 10
        ∧ ∀ i, i < 10 →
            (v.floors.getD i dummyFloor).floor_number = (if true then 1 else 0) + i
            ∧ (v.floors.getD i dummyFloor).units.length = m := by
  obtain ⟨v, hv⟩ := Option.isSome_iff_exists.mp scenario_variant_isSome
  exact ⟨v, hv,
    floor_replication_counts defaultRegulations DEFAULT_UNIT_TEMPLATES 10000
      (boxPoly 3 3 37 27) (fun _ => 0) "variant-1" .linear .doubleLoaded
      [("2BHK", 100)] 10 true v (by norm_num [defaultRegulations]) hv⟩

/-! ## C2 — object sharing across replicated floors -/

/-- Shape of the replication output: per floor `i`, a fresh block of unit
addresses starting at `h.units.length + i * m` (`m` the plate's unit
count), the floor number `s + i`, and the plate's own core and corridor
address lists; the core and corridor stores are untouched. -/
theorem replicateFloors_spec (plate : PlateRef) :
    ∀ (n : ℕ) (h : Heap) (s : ℕ),
      ((replicateFloors h plate s n).2.length = n)
      ∧ (replicateFloors h plate s n).1.units.length
          = h.units.length + n * plate.unitRefs.length
      ∧ (replicateFloors h plate s n).1.cores = h.cores
      ∧ (replicateFloors h plate s n).1.corridors = h.corridors
      ∧ ∀ i, i < n →
          (replicateFloors h plate s n).2.getD i dummyPlateRef
            = { floor_number := s + i
                unitRefs := (List.range plate.unitRefs.length).map
                  (fun j => h.units.length + i * plate.unitRefs.length + j)
                coreRefs := plate.coreRefs
                corridorRefs := plate.corridorRefs } := by
  intro n
  induction n with
  | zero =>
      intro h s
      exact ⟨rfl, by simp [replicateFloors], rfl, rfl, fun i hi => absurd hi (by omega)⟩
  | succ m ih =>
      intro h s
      obtain ⟨ihlen, ihunits, ihcores, ihcorr, ihget⟩ :=
        ih (copyFloor h plate s).1 (s + 1)
      have hculen : (copyFloor h plate s).1.units.length
          = h.units.length + plate.unitRefs.length := by
        simp [copyFloor]
      refine ⟨?_, ?_, ?_, ?_, ?_⟩
      · simp only [replicateFloors, List.length_cons, ihlen]
      · simp only [replicateFloors]
        rw [ihunits, hculen]
        ring
      · simp only [replicateFloors]
        rw [ihcores]
        simp [copyFloor]
      · simp only [replicateFloors]
        rw [ihcorr]
        simp [copyFloor]
      · intro i hi
        cases i with
        | zero =>
            simp only [replicateFloors, List.getD_cons_zero]
            simp [copyFloor]
        | succ j =>
            have hj : j < m := by omega
            simp only [replicateFloors, List.getD_cons_succ]
            rw [ihget j hj]
            have hfun : ∀ jj, (copyFloor h plate s).1.units.length
                + j * plate.unitRefs.length + jj
                = h.units.length + (j + 1) * plate.unitRefs.length + jj := by
              intro jj
              rw [hculen]
              ring
            simp only [hfun]
            have hfloor : s + 1 + j = s + (j + 1) := by omega
            rw [hfloor]

/-- C2, counterexample.  A one-unit, one-core, one-corridor plate
replicated over two floors: mutating the core object reached through the
first floor's record changes what the second floor's record observes,
because `cores.copy()` copies the list of references, not the objects.
The claim — that mutating a contained `PlacedCore` never changes any
other floor — is false. -/
theorem floor_copy_aliasing_cex :
    (let r := replicateFloors exampleHeap examplePlate 1 2
     let fl0 := r.2.getD 0 dummyPlateRef
     let fl1 := r.2.getD 1 dummyPlateRef
     let mutated := setCoreObj r.1 (fl0.coreRefs.getD 0 0)
       { exampleCore with x := 99 }
     viewCores mutated fl1 ≠ viewCores r.1 fl1) := by
  norm_num [exampleHeap, examplePlate, exampleCore, replicateFloors, copyFloor,
    setCoreObj, viewCores, dummyPlateRef]

/-- C2, amended: the per-floor unit objects are independent fresh copies
— the floors' unit-address blocks are disjoint, so mutating one floor's
unit object never changes another floor's units — but the `PlacedCore`
and `Corridor` objects are shared: every floor's record holds the same
core and corridor addresses (only the address lists themselves are fresh).
-/
theorem floor_copy_sharing (h0 : Heap) (plate : PlateRef) (s n i j : ℕ)
    (hi : i < n) (hj : j < n) (hij : i ≠ j) :
    (∀ a ∈ ((replicateFloors h0 plate s n).2.getD i dummyPlateRef).unitRefs,
        a ∉ ((replicateFloors h0 plate s n).2.getD j dummyPlateRef).unitRefs)
    ∧ (∀ a ∈ ((replicateFloors h0 plate s n).2.getD i dummyPlateRef).unitRefs,
        ∀ u, viewUnits (setUnitObj (replicateFloors h0 plate s n).1 a u)
            ((replicateFloors h0 plate s n).2.getD j dummyPlateRef)
          = viewUnits (replicateFloors h0 plate s n).1
            ((replicateFloors h0 plate s n).2.getD j dummyPlateRef))
    ∧ ((replicateFloors h0 plate s n).2.getD i dummyPlateRef).coreRefs
        = ((replicateFloors h0 plate s n).2.getD j dummyPlateRef).coreRefs
    ∧ ((replicateFloors h0 plate s n).2.getD i dummyPlateRef).corridorRefs
        = ((replicateFloors h0 plate s n).2.getD j dummyPlateRef).corridorRefs := by
  obtain ⟨-, -, -, -, hget⟩ := replicateFloors_spec plate n h0 s
  have hdisj : ∀ a ∈ ((replicateFloors h0 plate s n).2.getD i dummyPlateRef).unitRefs,
      a ∉ ((replicateFloors h0 plate s n).2.getD j dummyPlateRef).unitRefs := by
    rw [hget i hi, hget j hj]
    intro a ha hb
    simp only [List.mem_map, List.mem_range] at ha hb
    obtain ⟨a1, ha1, rfl⟩ := ha
    obtain ⟨b1, hb1, hb2⟩ := hb
    rcases lt_or_gt_of_ne hij with hlt | hlt
    · nlinarith
    · nlinarith
  refine ⟨hdisj, ?_, ?_, ?_⟩
  · intro a ha u
    unfold viewUnits setUnitObj
    apply List.map_congr_left
    intro r hr
    have hra : r ≠ a := fun hra => hdisj a ha (hra ▸ hr)
    simp only []
    rw [List.getD_eq_getElem?_getD, List.getD_eq_getElem?_getD,
      List.getElem?_set_ne (fun hh => hra hh.symm)]
  · rw [hget i hi, hget j hj]
  · rw [hget i hi, hget j hj]

/-- C2 witness: the amended sharing statement at the counterexample's
concrete plate and floors. -/
theorem floor_copy_sharing_witness :
    (∀ a ∈ ((replicateFloors exampleHeap examplePlate 1 2).2.getD 0
        dummyPlateRef).unitRefs,
      a ∉ ((replicateFloors exampleHeap examplePlate 1 2).2.getD 1
        dummyPlateRef).unitRefs)
    ∧ ((replicateFloors exampleHeap examplePlate 1 2).2.getD 0
        dummyPlateRef).coreRefs
      = ((replicateFloors exampleHeap examplePlate 1 2).2.getD 1
        dummyPlateRef).coreRefs := by
  have h := floor_copy_sharing exampleHeap examplePlate
    1 2 0 1 (by omega) (by omega) (by omega)
  exact ⟨h.1, h.2.2.1⟩

/-- C9 witness: a concrete scan run with surplus fuel 100 equals the run
at the computed bound `rowMeasure 20 0 = 67`. -/
theorem row_scan_terminates_witness :
    placeRowGo [defaultTwoBhk] 20 8 13 3 100 0 0
      = placeRowGo [defaultTwoBhk] 20 8 13 3 (rowMeasure 20 0) 0 0 :=
  row_scan_terminates [defaultTwoBhk] 20 8 13 3 0 0 100 (by norm_num)
    (by simp)
    (by rw [@rowMeasure_eval 20 0 67 (by norm_num) (by norm_num)]; norm_num)

end LayoutPlanner
